import Mathlib

/-!
# Verification of the `instrumentacao` delivery subsystem

Shallow embedding of the C sources `LineProtocol.c`, `DataQueue.c`,
`Sender.c` and `OfflineQueue.c`, together with theorems settling the
frozen claims about the natural-language specification.

Conventions of the embedding:
* C strings become Lean `String`/`List Char`; machine sizes become `Nat`.
* `malloc`/`realloc`/`strdup` failures are not modelled (memory allocation
  is assumed to succeed); `fopen` failures on the spool file are likewise
  outside the model.
* Stateful C functions become pure functions returning the new state.
-/

set_option autoImplicit false

/-! ## LineProtocol.c -/

/-- Error codes of `LineProtocol.h` (enum `LineProtocolError`). -/
inductive LineProtocolError where
  | LP_SUCCESS
  | LP_ERROR_INVALID_PARAM
  | LP_ERROR_BUFFER_FULL
  | LP_ERROR_INVALID_STATE
  | LP_ERROR_MEMORY_ALLOC
  | LP_ERROR_INVALID_MEASUREMENT
  | LP_ERROR_INVALID_TAG_KEY
  | LP_ERROR_INVALID_FIELD_KEY
  deriving DecidableEq, Repr

open LineProtocolError

/-- `LP_DEFAULT_CAPACITY` from `LineProtocol.c`. -/
def LP_DEFAULT_CAPACITY : Nat := 1024

/-- `LP_GROWTH_FACTOR` from `LineProtocol.c`. -/
def LP_GROWTH_FACTOR : Nat := 2

/-- `LP_MAX_CAPACITY` (1 MiB) from `LineProtocol.c`. -/
def LP_MAX_CAPACITY : Nat := 1024 * 1024

/-- The builder struct of `LineProtocol.c`.  The C `buffer`/`position` pair
is modelled by the `buffer` string holding exactly the written content, so
the C field `position` is `buffer.length` here (the code keeps
`buffer[0..position)` as the written, NUL-terminated content). -/
structure LineProtocolBuilder where
  buffer : String
  capacity : Nat
  measurement_end : Nat
  tags_end : Nat
  fields_start : Nat
  has_measurement : Bool
  has_fields : Bool
  has_timestamp : Bool
  finalized : Bool
  deriving DecidableEq, Repr

/-- A C `double` argument.  Only the properties the code inspects are
modelled: `isnan`, `isinf`, and the `%.6f` rendering of a finite value. -/
inductive CDouble where
  | nan
  | inf (negative : Bool)
  | finite (rendered : String)
  deriving DecidableEq, Repr

/-- `isnan(value)` for the modelled double. -/
def CDouble.isNan : CDouble → Bool
  | .nan => true
  | _ => false

/-- `isinf(value)` for the modelled double. -/
def CDouble.isInf : CDouble → Bool
  | .inf _ => true
  | _ => false

/-- The `%.6f` rendering of the modelled double (only used on finite values
by the code, since NaN/Inf are rejected first). -/
def CDouble.render : CDouble → String
  | .finite s => s
  | .nan => "nan"
  | .inf true => "-inf"
  | .inf false => "inf"

/-- The character-level escaping loop of `escape_string` in
`LineProtocol.c`: a quote or backslash is preceded by a backslash, every
other byte is copied unchanged. -/
def escape_chars : List Char → List Char
  | [] => []
  | c :: rest =>
    if c = '"' || c = '\\' then '\\' :: c :: escape_chars rest
    else c :: escape_chars rest

/-- `escape_string` from `LineProtocol.c` (NULL input and malloc failure
are outside the model). -/
def escape_string (input : String) : String :=
  String.mk (escape_chars input.data)

/-- Unescaping, modelled from the spec: dropping one backslash before each
escaped character recovers the original bytes. -/
def unescape_chars : List Char → List Char
  | [] => []
  | c :: rest =>
    if c = '\\' then
      match rest with
      | [] => [c]
      | c2 :: rest2 => c2 :: unescape_chars rest2
    else c :: unescape_chars rest

/-- String-level unescaping of a serialized field value. -/
def unescape_string (s : String) : String :=
  String.mk (unescape_chars s.data)

/-- The doubling loop of `ensure_capacity`:
`while (new_capacity < required_capacity) new_capacity *= 2`.
The `0 < newCapacity` guard makes the function total; the C loop does not
terminate at capacity `0`, a state the builder API never produces
(capacities are always at least 64). -/
def growLoop (required : Nat) (newCapacity : Nat) : Nat :=
  if h : newCapacity < required ∧ 0 < newCapacity then
    growLoop required (newCapacity * 2)
  else newCapacity
termination_by required - newCapacity
decreasing_by omega

/-- `ensure_capacity` from `LineProtocol.c`.  `required_capacity` counts the
NUL terminator; growth doubles starting from `capacity * LP_GROWTH_FACTOR`
and fails with `LP_ERROR_BUFFER_FULL` past `LP_MAX_CAPACITY`. -/
def ensure_capacity (builder : LineProtocolBuilder) (needed_space : Nat) :
    LineProtocolError × LineProtocolBuilder :=
  let required_capacity := builder.buffer.length + needed_space + 1
  if required_capacity ≤ builder.capacity then (LP_SUCCESS, builder)
  else
    let new_capacity := growLoop required_capacity (builder.capacity * LP_GROWTH_FACTOR)
    if new_capacity > LP_MAX_CAPACITY then (LP_ERROR_BUFFER_FULL, builder)
    else (LP_SUCCESS, { builder with capacity := new_capacity })

/-- `append_string` from `LineProtocol.c`.  `append_formatted` behaves
identically once the `printf`-style format has been instantiated, so both
helpers are modelled by this function applied to the formatted string. -/
def append_string (builder : LineProtocolBuilder) (str : String) :
    LineProtocolError × LineProtocolBuilder :=
  let r := ensure_capacity builder str.length
  if r.1 ≠ LP_SUCCESS then r
  else (LP_SUCCESS, { r.2 with buffer := r.2.buffer ++ str })

/-- `isalnum` in the C locale. -/
def c_isalnum (c : Char) : Bool := c.isAlpha || c.isDigit

/-- `lp_is_valid_measurement_name` from `LineProtocol.c`. -/
def lp_is_valid_measurement_name (name : String) : Bool :=
  match name.data with
  | [] => false
  | c :: _ =>
    if c = '_' then false
    else name.data.all (fun ch => c_isalnum ch || ch = '_' || ch = '-' || ch = '.')

/-- `lp_is_valid_tag_key` from `LineProtocol.c`. -/
def lp_is_valid_tag_key (key : String) : Bool :=
  key.data ≠ [] && key.data.all (fun ch => c_isalnum ch || ch = '_')

/-- `lp_is_valid_field_key` from `LineProtocol.c` (same rules as tag keys). -/
def lp_is_valid_field_key (key : String) : Bool :=
  lp_is_valid_tag_key key

/-- `lp_builder_create` from `LineProtocol.c`: requested capacities below 64
are raised to 64, requested capacities above `LP_MAX_CAPACITY` yield no
builder, and the fresh builder holds an empty record. -/
def lp_builder_create (initial_capacity : Nat) : Option LineProtocolBuilder :=
  let initial_capacity := if initial_capacity < 64 then 64 else initial_capacity
  if initial_capacity > LP_MAX_CAPACITY then none
  else some
    { buffer := ""
      capacity := initial_capacity
      measurement_end := 0
      tags_end := 0
      fields_start := 0
      has_measurement := false
      has_fields := false
      has_timestamp := false
      finalized := false }

/-- `lp_builder_create_default` from `LineProtocol.c`. -/
def lp_builder_create_default : Option LineProtocolBuilder :=
  lp_builder_create LP_DEFAULT_CAPACITY

/-- `lp_builder_reset` from `LineProtocol.c` (non-NULL builder case). -/
def lp_builder_reset (builder : LineProtocolBuilder) : LineProtocolBuilder :=
  { builder with
      buffer := ""
      measurement_end := 0
      tags_end := 0
      fields_start := 0
      has_measurement := false
      has_fields := false
      has_timestamp := false
      finalized := false }

/-- `lp_set_measurement` from `LineProtocol.c`. -/
def lp_set_measurement (builder : LineProtocolBuilder) (measurement : String) :
    LineProtocolError × LineProtocolBuilder :=
  if builder.finalized then (LP_ERROR_INVALID_STATE, builder)
  else if ¬ lp_is_valid_measurement_name measurement then
    (LP_ERROR_INVALID_MEASUREMENT, builder)
  else
    let r := append_string (lp_builder_reset builder) measurement
    if r.1 ≠ LP_SUCCESS then r
    else (LP_SUCCESS,
      { r.2 with
          has_measurement := true
          measurement_end := r.2.buffer.length
          tags_end := r.2.buffer.length })

/-- `lp_add_tag` from `LineProtocol.c`: fails with `LP_ERROR_INVALID_STATE`
if finalized, if no measurement is set, or if any field has been added. -/
def lp_add_tag (builder : LineProtocolBuilder) (key value : String) :
    LineProtocolError × LineProtocolBuilder :=
  if builder.finalized then (LP_ERROR_INVALID_STATE, builder)
  else if ¬ builder.has_measurement then (LP_ERROR_INVALID_STATE, builder)
  else if builder.has_fields then (LP_ERROR_INVALID_STATE, builder)
  else if ¬ lp_is_valid_tag_key key then (LP_ERROR_INVALID_TAG_KEY, builder)
  else
    let r := append_string builder ("," ++ key ++ "=" ++ value)
    if r.1 ≠ LP_SUCCESS then r
    else (LP_SUCCESS, { r.2 with tags_end := r.2.buffer.length })

/-- `lp_add_field_double` from `LineProtocol.c`: NaN and infinite values are
rejected with `LP_ERROR_INVALID_PARAM` after the state and key checks. -/
def lp_add_field_double (builder : LineProtocolBuilder) (key : String) (value : CDouble) :
    LineProtocolError × LineProtocolBuilder :=
  if builder.finalized then (LP_ERROR_INVALID_STATE, builder)
  else if ¬ builder.has_measurement then (LP_ERROR_INVALID_STATE, builder)
  else if ¬ lp_is_valid_field_key key then (LP_ERROR_INVALID_FIELD_KEY, builder)
  else if value.isNan || value.isInf then (LP_ERROR_INVALID_PARAM, builder)
  else
    let separator := if builder.has_fields then "," else " "
    let r := append_string builder (separator ++ key ++ "=" ++ value.render)
    if r.1 ≠ LP_SUCCESS then r
    else if ¬ r.2.has_fields then
      (LP_SUCCESS,
        { r.2 with
            fields_start := r.2.buffer.length - key.length - 8
            has_fields := true })
    else (LP_SUCCESS, r.2)

/-- `lp_add_field_string` from `LineProtocol.c`: the value is escaped and
wrapped in double quotes. -/
def lp_add_field_string (builder : LineProtocolBuilder) (key value : String) :
    LineProtocolError × LineProtocolBuilder :=
  if builder.finalized then (LP_ERROR_INVALID_STATE, builder)
  else if ¬ builder.has_measurement then (LP_ERROR_INVALID_STATE, builder)
  else if ¬ lp_is_valid_field_key key then (LP_ERROR_INVALID_FIELD_KEY, builder)
  else
    let escaped_value := escape_string value
    let separator := if builder.has_fields then "," else " "
    let r := append_string builder (separator ++ key ++ "=\"" ++ escaped_value ++ "\"")
    if r.1 ≠ LP_SUCCESS then r
    else if ¬ r.2.has_fields then (LP_SUCCESS, { r.2 with has_fields := true })
    else (LP_SUCCESS, r.2)

/-- `lp_set_timestamp` from `LineProtocol.c`.  The `" %lld"` format renders
the 64-bit timestamp as `" " ++ toString timestamp`. -/
def lp_set_timestamp (builder : LineProtocolBuilder) (timestamp : Int) :
    LineProtocolError × LineProtocolBuilder :=
  if builder.finalized then (LP_ERROR_INVALID_STATE, builder)
  else if ¬ builder.has_measurement || ¬ builder.has_fields then
    (LP_ERROR_INVALID_STATE, builder)
  else
    let r := append_string builder (" " ++ toString timestamp)
    if r.1 ≠ LP_SUCCESS then r
    else (LP_SUCCESS, { r.2 with has_timestamp := true })

/-- `lp_copy` from `LineProtocol.c`, with the wall-clock second count
`time(NULL)` (via `lp_set_timestamp_now`) passed in as `now`.  Returns the
copied record (or `none`, the C `NULL`) together with the updated builder. -/
def lp_copy (now : Int) (builder : LineProtocolBuilder) :
    Option String × LineProtocolBuilder :=
  if ¬ builder.has_measurement || ¬ builder.has_fields then (none, builder)
  else
    let r : Bool × LineProtocolBuilder :=
      if ¬ builder.has_timestamp then
        (decide ((lp_set_timestamp builder now).1 = LP_SUCCESS),
         (lp_set_timestamp builder now).2)
      else (true, builder)
    if ¬ r.1 then (none, r.2)
    else (some r.2.buffer, { r.2 with finalized := true })

/-- `lp_validate` from `LineProtocol.c`. -/
def lp_validate (builder : LineProtocolBuilder) : LineProtocolError :=
  if ¬ builder.has_measurement then LP_ERROR_INVALID_MEASUREMENT
  else if ¬ builder.has_fields then LP_ERROR_INVALID_STATE
  else LP_SUCCESS

/-! ## DataQueue.c

The linked list guarded by the mutex is modelled as the list of its node
payloads in head-to-tail order, together with the `shutdown` flag.  Blocking
of `data_queue_dequeue` (the `pthread_cond_wait` loop) is modelled by
returning `none` at the outer level: `none` means the call would block,
`some (r, q)` means it returns `r` (the C `NULL` being `r = none`) leaving
the queue in state `q`. -/

/-- The `DataQueue` struct: payloads in FIFO order plus the shutdown flag. -/
structure DataQueue where
  items : List String
  shutdown : Bool
  deriving DecidableEq, Repr

/-- `data_queue_create`. -/
def data_queue_create : DataQueue := { items := [], shutdown := false }

/-- `data_queue_enqueue`: a copy of the string is appended at the tail
(`strdup` failure is outside the model). -/
def data_queue_enqueue (q : DataQueue) (data : String) : DataQueue :=
  { q with items := q.items ++ [data] }

/-- `data_queue_dequeue`: waits while the queue is empty and not shut down
(modelled as the outer `none`); returns the C `NULL` (inner `none`) when
shut down and drained; otherwise pops the head. -/
def data_queue_dequeue (q : DataQueue) : Option (Option String × DataQueue) :=
  if q.items = [] && !q.shutdown then none
  else if q.shutdown && q.items = [] then some (none, q)
  else
    match q.items with
    | [] => some (none, q)
    | d :: rest => some (some d, { q with items := rest })

/-- `data_queue_shutdown`. -/
def data_queue_shutdown (q : DataQueue) : DataQueue :=
  { q with shutdown := true }

/-- Perform `k` successive dequeues, collecting the returned values;
`none` if any of them would block. -/
def drainAll (q : DataQueue) : Nat → Option (List (Option String))
  | 0 => some []
  | k + 1 =>
    match data_queue_dequeue q with
    | none => none
    | some (r, q') => (drainAll q' k).map (r :: ·)

/-! ## OfflineQueue.c -/

/-- `MAX_BATCH_SIZE` from `OfflineQueue.c`. -/
def MAX_BATCH_SIZE : Nat := 5000

/-- `MAX_LINE_LENGTH` from `OfflineQueue.c` (the `fgets` buffer size). -/
def MAX_LINE_LENGTH : Nat := 2048

/-- `offline_queue_add`: appends the record plus a newline to the spool
file, whose content is modelled as a character list. -/
def offline_queue_add (spool : List Char) (line_protocol : String) : List Char :=
  spool ++ line_protocol.data ++ ['\n']

/-- `fgets(line, maxChars + 1, infile)` on a character stream: reads at most
`maxChars` characters, stopping after a newline; returns the characters
read and the rest of the stream.  (The caller treats an empty read of an
empty stream as EOF.) -/
def read_line (maxChars : Nat) (input : List Char) : List Char × List Char :=
  match maxChars, input with
  | _, [] => ([], [])
  | 0, rest => ([], rest)
  | m + 1, c :: rest =>
    if c = '\n' then ([c], rest)
    else (c :: (read_line m rest).1, (read_line m rest).2)

/-- Reading never lengthens the remaining stream. -/
theorem read_line_rest_length_le (maxChars : Nat) (input : List Char) :
    (read_line maxChars input).2.length ≤ input.length := by
  induction maxChars generalizing input with
  | zero => cases input <;> simp [read_line]
  | succ m ih =>
    cases input with
    | nil => simp [read_line]
    | cons c rest =>
      simp only [read_line]
      split
      · simp
      · simpa using Nat.le_succ_of_le (ih rest)

/-- With a positive budget, reading a nonempty stream strictly shortens it. -/
theorem read_line_rest_length_lt (maxChars : Nat) (c : Char) (rest : List Char)
    (hm : 0 < maxChars) :
    (read_line maxChars (c :: rest)).2.length < (c :: rest).length := by
  cases maxChars with
  | zero => omega
  | succ m =>
    simp only [read_line]
    split
    · simp
    · have h := read_line_rest_length_le m rest
      simp only [List.length_cons]
      omega

/-- `line[strcspn(line, "\r\n")] = 0`: truncate at the first CR or LF. -/
def strip_crlf (line : List Char) : List Char :=
  line.takeWhile (fun c => c != '\r' && c != '\n')

/-- `process_batch` from `OfflineQueue.c`: an empty batch succeeds without
calling the callback; otherwise the lines are concatenated and handed to
the send callback.  The gzip compression applied to the concatenated
buffer is an injective encoding that the callback inverts, so the callback
is modelled on the uncompressed concatenation; the second component lists
the payloads passed to the callback. -/
def process_batch (send_func : String → Bool) (line_batch : List String) :
    Bool × List String :=
  if line_batch.length = 0 then (true, [])
  else
    let buffer := String.join line_batch
    (send_func buffer, [buffer])

/-- The `while (fgets(...))` loop of `offline_queue_process`, including the
final leftover-batch step.  `batch` is the current `line_batch`, `tmp` the
lines already written to the temporary file, `failed` the
`any_batch_failed` flag, and `sent` the payloads handed to the callback so
far.  Returns the temporary file's lines, the failure flag, and all
payloads sent. -/
def replay_loop (send_func : String → Bool) (input : List Char)
    (batch tmp : List String) (failed : Bool) (sent : List String) :
    List String × Bool × List String :=
  match input with
  | [] =>
    if batch.length ≠ 0 then
      let pb := process_batch send_func batch
      ((if pb.1 then tmp else tmp ++ batch), (failed || !pb.1), sent ++ pb.2)
    else (tmp, failed, sent)
  | c :: rest =>
    let rl := read_line (MAX_LINE_LENGTH - 1) (c :: rest)
    let line := strip_crlf rl.1
    if line.length = 0 then replay_loop send_func rl.2 batch tmp failed sent
    else
      let line_with_newline := String.mk (line ++ ['\n'])
      let batch' := batch ++ [line_with_newline]
      if batch'.length = MAX_BATCH_SIZE then
        let pb := process_batch send_func batch'
        replay_loop send_func rl.2 []
          (if pb.1 then tmp else tmp ++ batch') (failed || !pb.1) (sent ++ pb.2)
      else replay_loop send_func rl.2 batch' tmp failed sent
termination_by input.length
decreasing_by
  all_goals exact read_line_rest_length_lt (MAX_LINE_LENGTH - 1) _ _ (by decide)

/-- Observable outcome of `offline_queue_process`: the spool file content
afterwards (`none` when the file does not exist), whether the temporary
file still exists under its own name, and the payloads handed to the send
callback. -/
structure ReplayOutcome where
  spool : Option (List Char)
  tmpExists : Bool
  sent : List String
  deriving DecidableEq, Repr

/-- `offline_queue_process` from `OfflineQueue.c`.  A missing or empty
spool file returns immediately; otherwise the file is replayed in batches
and, depending on `any_batch_failed`, the spool is atomically replaced by
the temporary file or both files are removed. -/
def offline_queue_process (send_func : String → Bool)
    (spool : Option (List Char)) : ReplayOutcome :=
  match spool with
  | none => { spool := none, tmpExists := false, sent := [] }
  | some content =>
    if content.isEmpty then { spool := some content, tmpExists := false, sent := [] }
    else
      let r := replay_loop send_func content [] [] false []
      if r.2.1 then
        { spool := some (String.join r.1).data, tmpExists := false, sent := r.2.2 }
      else { spool := none, tmpExists := false, sent := r.2.2 }

/-! ## Sender.c -/

/-- The parts of `SenderContext` that `sender_submit` inspects. -/
structure SenderContext where
  queue : DataQueue
  is_running : Bool
  deriving DecidableEq, Repr

/-- `sender_submit` from `Sender.c`, acting on the context (the C `NULL`
context being `none`) and the spool file content: with no running sender
the record goes straight to the spool via `offline_queue_add`, otherwise it
is enqueued on the delivery queue. -/
def sender_submit (context : Option SenderContext) (spool : List Char)
    (line_protocol : String) : Option SenderContext × List Char :=
  match context with
  | none => (none, offline_queue_add spool line_protocol)
  | some c =>
    if !c.is_running then (some c, offline_queue_add spool line_protocol)
    else (some { c with queue := data_queue_enqueue c.queue line_protocol }, spool)

/-! ## Reference-level descriptions of the replay loop

`replay_loop` works character by character through the spool file.  The
following functions describe the same computation at the level of the line
entries that end up in `line_batch`; the correspondence is proved below. -/

/-- The replay loop of `offline_queue_process` expressed directly on the
newline-terminated line entries that are accumulated into `line_batch`. -/
def replay_lines (send_func : String → Bool) :
    List String → List String → List String → Bool → List String →
    List String × Bool × List String
  | [], batch, tmp, failed, sent =>
    if batch.length ≠ 0 then
      let pb := process_batch send_func batch
      ((if pb.1 then tmp else tmp ++ batch), (failed || !pb.1), sent ++ pb.2)
    else (tmp, failed, sent)
  | e :: es, batch, tmp, failed, sent =>
    let batch' := batch ++ [e]
    if batch'.length = MAX_BATCH_SIZE then
      let pb := process_batch send_func batch'
      replay_lines send_func es []
        (if pb.1 then tmp else tmp ++ batch') (failed || !pb.1) (sent ++ pb.2)
    else replay_lines send_func es batch' tmp failed sent

/-- Successive groups of at most `MAX_BATCH_SIZE` line entries, as the
replay loop forms them. -/
def spool_batches (entries : List String) : List (List String) :=
  if h : entries = [] then []
  else entries.take MAX_BATCH_SIZE :: spool_batches (entries.drop MAX_BATCH_SIZE)
termination_by entries.length
decreasing_by
  have h1 : entries.length ≠ 0 := fun hz => h (List.length_eq_zero.mp hz)
  simp only [List.length_drop, MAX_BATCH_SIZE]
  omega

/-- The pieces into which `fgets` with a 2048-byte buffer cuts a stretch of
characters that contains no newline: maximal groups of 2047 characters. -/
def chop2047 (cs : List Char) : List (List Char) :=
  if h : cs = [] then []
  else cs.take 2047 :: chop2047 (cs.drop 2047)
termination_by cs.length
decreasing_by
  have h1 : cs.length ≠ 0 := fun hz => h (List.length_eq_zero.mp hz)
  simp only [List.length_drop]
  omega

/-- The spool file holding the given records, one per line. -/
def encode_lines (lines : List String) : List Char :=
  (lines.map (fun l => l.data ++ ['\n'])).join

/-! ## Concrete inputs used by witnesses and counterexamples -/

/-- A builder holding measurement `m` and no fields yet (the state reached
by `lp_set_measurement` on a fresh default builder). -/
def freshMeasured : LineProtocolBuilder :=
  { buffer := "m"
    capacity := 1024
    measurement_end := 1
    tags_end := 1
    fields_start := 0
    has_measurement := true
    has_fields := false
    has_timestamp := false
    finalized := false }

/-- A builder holding measurement `m` and one integer field. -/
def measuredWithField : LineProtocolBuilder :=
  { buffer := "m f=1i"
    capacity := 1024
    measurement_end := 1
    tags_end := 1
    fields_start := 2
    has_measurement := true
    has_fields := true
    has_timestamp := false
    finalized := false }

/-- A finalized builder (the state left behind by a successful `lp_copy`). -/
def finalizedBuilder : LineProtocolBuilder :=
  { buffer := "m f=1.000000 0"
    capacity := 1024
    measurement_end := 1
    tags_end := 1
    fields_start := 2
    has_measurement := true
    has_fields := true
    has_timestamp := true
    finalized := true }

/-- A builder whose buffer is one byte short of the 1 MiB capacity cap,
with measurement and fields present but no timestamp yet. -/
def nearFullBuilder : LineProtocolBuilder :=
  { buffer := String.mk (List.replicate 1048575 'a')
    capacity := LP_MAX_CAPACITY
    measurement_end := 1
    tags_end := 1
    fields_start := 2
    has_measurement := true
    has_fields := true
    has_timestamp := false
    finalized := false }

/-- A builder created with the non-power-of-two capacity 600000
(`lp_builder_create 600000` produces exactly this builder). -/
def oddCapacityBuilder : LineProtocolBuilder :=
  { buffer := ""
    capacity := 600000
    measurement_end := 0
    tags_end := 0
    fields_start := 0
    has_measurement := false
    has_fields := false
    has_timestamp := false
    finalized := false }

/-- A stopped sender context. -/
def stoppedSender : SenderContext :=
  { queue := data_queue_create, is_running := false }

/-- 12000 spool lines among which line 5001 contains a carriage return. -/
def linesC1c : List String :=
  List.replicate 5000 "c" ++ "a\rb" :: List.replicate 6999 "c"

/-- What the claim calls "the 2nd batch (lines 5001-10000)" of `linesC1c`:
those lines, newline-terminated and concatenated. -/
def claimedBatch2 : String :=
  String.join (((linesC1c.drop 5000).take 5000).map (· ++ "\n"))

/-- A send callback that fails exactly on the claimed 2nd batch of
`linesC1c` and succeeds on every other payload. -/
def sendC1c : String → Bool := fun s => !(decide (s = claimedBatch2))

/-- A 2048-character record (one byte over the 2047 bytes `fgets` can
deliver at once). -/
def longRecord : String := String.mk (List.replicate 2048 'x')

/-- 12000 well-formed spool lines: 5000 lines `a`, 5000 lines `b`,
2000 lines `c`. -/
def linesW : List String :=
  List.replicate 5000 "a" ++ (List.replicate 5000 "b" ++ List.replicate 2000 "c")

/-- A send callback that fails exactly on payloads whose first byte is
`b` — on `linesW` that is precisely the 2nd batch. -/
def sendW : String → Bool := fun s => !(decide (s.data.head? = some 'b'))

/-! ## Claim C9: replaying a missing or empty spool is a no-op -/

/-- C9: if the spool file does not exist, or exists with size zero,
`offline_queue_process` is a no-op: the send callback is never invoked, no
temporary file is created, and no spool file is created or modified. -/
theorem C9_empty_spool_noop (send_func : String → Bool) :
    offline_queue_process send_func none =
      { spool := none, tmpExists := false, sent := [] } ∧
    offline_queue_process send_func (some []) =
      { spool := some [], tmpExists := false, sent := [] } := by
  exact ⟨rfl, rfl⟩

/-! ## Claim C2: FIFO delivery through the data queue -/

/-- Enqueueing appends at the tail and leaves the shutdown flag alone. -/
theorem foldl_enqueue_items (rs : List String) (q : DataQueue) :
    rs.foldl data_queue_enqueue q =
      { items := q.items ++ rs, shutdown := q.shutdown } := by
  induction rs generalizing q with
  | nil => simp
  | cons r rs ih => simp [data_queue_enqueue, ih]

/-- One step of `drainAll`. -/
theorem drainAll_succ (q : DataQueue) (k : Nat) :
    drainAll q (k + 1) =
      match data_queue_dequeue q with
      | none => none
      | some (r, q') => (drainAll q' k).map (r :: ·) := rfl

/-- Draining a shut-down queue returns its items in order and then the
no-more-data signal, never blocking. -/
theorem drainAll_shutdown (rs : List String) :
    drainAll { items := rs, shutdown := true } (rs.length + 1) =
      some (rs.map some ++ [none]) := by
  induction rs with
  | nil => rfl
  | cons r rs ih =>
    have hdq : data_queue_dequeue { items := r :: rs, shutdown := true } =
        some (some r, { items := rs, shutdown := true }) := by
      simp [data_queue_dequeue]
    rw [drainAll_succ, hdq]
    simp [ih]

/-- C2: for every sequence of records enqueued via `data_queue_enqueue`
followed by `data_queue_shutdown`, successive `data_queue_dequeue` calls
return exactly those records in enqueue order, and the next dequeue
returns the no-more-data signal (`none`) instead of blocking. -/
theorem C2_fifo_delivery (rs : List String) :
    drainAll (data_queue_shutdown (rs.foldl data_queue_enqueue data_queue_create))
        (rs.length + 1) =
      some (rs.map some ++ [none]) := by
  have h1 : data_queue_shutdown (rs.foldl data_queue_enqueue data_queue_create) =
      { items := rs, shutdown := true } := by
    rw [foldl_enqueue_items]
    rfl
  rw [h1, drainAll_shutdown]

/-! ## Claim C3: submission routing when the sender is unavailable -/

/-- C3: with a NULL context or a context that is not running, a submitted
record bypasses the delivery queue and is appended to the spool followed
by a newline; with a running context it is enqueued and the spool is
untouched. -/
theorem C3_submit_routing (context : Option SenderContext) (spool : List Char)
    (line_protocol : String) :
    ((context = none ∨ ∃ c, context = some c ∧ c.is_running = false) →
      sender_submit context spool line_protocol =
        (context, spool ++ line_protocol.data ++ ['\n'])) ∧
    (∀ c, context = some c → c.is_running = true →
      sender_submit context spool line_protocol =
        (some { c with queue := data_queue_enqueue c.queue line_protocol },
         spool)) := by
  constructor
  · rintro (rfl | ⟨c, rfl, hc⟩)
    · simp [sender_submit, offline_queue_add]
    · simp [sender_submit, hc, offline_queue_add]
  · rintro c rfl hc
    simp [sender_submit, hc]

/-- Witness for C3 at a stopped sender context. -/
theorem C3_witness :
    ((some stoppedSender : Option SenderContext) = none ∨
      ∃ c, (some stoppedSender : Option SenderContext) = some c ∧
        c.is_running = false) ∧
    sender_submit (some stoppedSender) [] "m f=1i 7" =
      (some stoppedSender, [] ++ "m f=1i 7".data ++ ['\n']) :=
  ⟨Or.inr ⟨stoppedSender, rfl, rfl⟩,
   (C3_submit_routing (some stoppedSender) [] "m f=1i 7").1
     (Or.inr ⟨stoppedSender, rfl, rfl⟩)⟩

/-! ## Claim C4: tags are rejected after fields or before a measurement -/

/-- C4: once any field has been added (or while no measurement is set),
`lp_add_tag` fails with `LP_ERROR_INVALID_STATE` for all key and value
strings, leaving the builder unchanged. -/
theorem C4_add_tag_invalid_state (b : LineProtocolBuilder) (key value : String)
    (h : b.has_fields = true ∨ b.has_measurement = false) :
    lp_add_tag b key value = (LP_ERROR_INVALID_STATE, b) := by
  cases hfin : b.finalized <;> cases hm : b.has_measurement <;>
    rcases h with h | h <;> simp_all [lp_add_tag]

/-- Witness for C4 on a builder with one field added. -/
theorem C4_witness :
    (measuredWithField.has_fields = true ∨
      measuredWithField.has_measurement = false) ∧
    lp_add_tag measuredWithField "host" "boat" =
      (LP_ERROR_INVALID_STATE, measuredWithField) :=
  ⟨Or.inl rfl, C4_add_tag_invalid_state measuredWithField "host" "boat" (Or.inl rfl)⟩

/-! ## Claim C5: non-finite double field values are rejected -/

/-- C5 (amended with "not finalized"): on a non-finalized builder with a
measurement set and a valid field key, `lp_add_field_double` with NaN or an
infinity returns `LP_ERROR_INVALID_PARAM` and leaves the builder completely
unchanged. -/
theorem C5_nonfinite_rejected (b : LineProtocolBuilder) (key : String)
    (value : CDouble) (hfin : b.finalized = false)
    (hm : b.has_measurement = true) (hk : lp_is_valid_field_key key = true)
    (hv : value.isNan = true ∨ value.isInf = true) :
    lp_add_field_double b key value = (LP_ERROR_INVALID_PARAM, b) := by
  rcases hv with hv | hv <;> simp [lp_add_field_double, hfin, hm, hk, hv]

/-- Witness for C5 with a NaN value on a fresh measured builder. -/
theorem C5_witness :
    freshMeasured.finalized = false ∧ freshMeasured.has_measurement = true ∧
    lp_is_valid_field_key "v" = true ∧ CDouble.nan.isNan = true ∧
    lp_add_field_double freshMeasured "v" CDouble.nan =
      (LP_ERROR_INVALID_PARAM, freshMeasured) :=
  ⟨rfl, rfl, by decide, rfl,
   C5_nonfinite_rejected freshMeasured "v" CDouble.nan rfl rfl (by decide)
     (Or.inl rfl)⟩

/-- C5 counterexample: a finalized builder still has its measurement set
and a valid key, yet `lp_add_field_double` with NaN returns
`LP_ERROR_INVALID_STATE`, not the claimed `LP_ERROR_INVALID_PARAM`. -/
theorem C5_counterexample :
    finalizedBuilder.has_measurement = true ∧
    lp_is_valid_field_key "v" = true ∧
    lp_add_field_double finalizedBuilder "v" CDouble.nan =
      (LP_ERROR_INVALID_STATE, finalizedBuilder) ∧
    (lp_add_field_double finalizedBuilder "v" CDouble.nan).1 ≠
      LP_ERROR_INVALID_PARAM := by
  refine ⟨rfl, by decide, by decide, by decide⟩

/-! ## Claim C6: string field escaping and its round trip -/

/-- Unescaping consumes an escape pair. -/
theorem unescape_chars_backslash (x : Char) (l : List Char) :
    unescape_chars ('\\' :: x :: l) = x :: unescape_chars l := rfl

/-- Unescaping passes other characters through. -/
theorem unescape_chars_other (c : Char) (l : List Char) (h : c ≠ '\\') :
    unescape_chars (c :: l) = c :: unescape_chars l := by
  rw [unescape_chars.eq_def]
  simp [h]

/-- Unescaping inverts escaping on every character list. -/
theorem unescape_escape_chars (cs : List Char) :
    unescape_chars (escape_chars cs) = cs := by
  induction cs with
  | nil => rfl
  | cons c rest ih =>
    by_cases hc : c = '"' ∨ c = '\\'
    · have h1 : escape_chars (c :: rest) = '\\' :: c :: escape_chars rest := by
        rcases hc with h | h <;> simp [escape_chars, h]
      rw [h1, unescape_chars_backslash, ih]
    · push_neg at hc
      have h1 : escape_chars (c :: rest) = c :: escape_chars rest := by
        simp [escape_chars, hc.1, hc.2]
      rw [h1, unescape_chars_other c _ hc.2, ih]

/-- `ensure_capacity` written without the intermediate `let` bindings. -/
theorem ensure_capacity_def (b : LineProtocolBuilder) (n : Nat) :
    ensure_capacity b n =
      if b.buffer.length + n + 1 ≤ b.capacity then (LP_SUCCESS, b)
      else if growLoop (b.buffer.length + n + 1) (b.capacity * LP_GROWTH_FACTOR) >
          LP_MAX_CAPACITY then
        (LP_ERROR_BUFFER_FULL, b)
      else
        (LP_SUCCESS,
         { b with capacity := growLoop (b.buffer.length + n + 1) (b.capacity * LP_GROWTH_FACTOR) }) := rfl

/-- `ensure_capacity` only ever changes the capacity field. -/
theorem ensure_capacity_shape (b : LineProtocolBuilder) (n : Nat) :
    ∃ cap, (ensure_capacity b n).2 = { b with capacity := cap } := by
  rw [ensure_capacity_def]
  split
  · exact ⟨b.capacity, rfl⟩
  · split
    · exact ⟨b.capacity, rfl⟩
    · exact ⟨_, rfl⟩

/-- On success, `append_string` appends to the buffer and changes nothing
else but the capacity. -/
theorem append_string_success_shape (b : LineProtocolBuilder) (s : String)
    (h : (ensure_capacity b s.length).1 = LP_SUCCESS) :
    ∃ cap, append_string b s =
      (LP_SUCCESS, { b with buffer := b.buffer ++ s, capacity := cap }) := by
  obtain ⟨cap, hcap⟩ := ensure_capacity_shape b s.length
  refine ⟨cap, ?_⟩
  unfold append_string
  rw [show ensure_capacity b s.length = (LP_SUCCESS, { b with capacity := cap })
    from Prod.ext h hcap]
  simp

/-- On an `ensure_capacity` failure, `append_string` returns the failure
and the untouched builder. -/
theorem append_string_failure_shape (b : LineProtocolBuilder) (s : String)
    (h : (ensure_capacity b s.length).1 ≠ LP_SUCCESS) :
    append_string b s = ensure_capacity b s.length := by
  obtain ⟨cap, hcap⟩ := ensure_capacity_shape b s.length
  unfold append_string
  rw [show ensure_capacity b s.length =
      ((ensure_capacity b s.length).1, { b with capacity := cap })
    from Prod.ext rfl hcap]
  simp [h]

/-- The string appended by a successful `lp_add_field_string`. -/
theorem lp_add_field_string_success (b : LineProtocolBuilder) (key value : String)
    (hfin : b.finalized = false) (hm : b.has_measurement = true)
    (hk : lp_is_valid_field_key key = true)
    (hcapa : (ensure_capacity b ((if b.has_fields then "," else " ") ++ key ++
        "=\"" ++ escape_string value ++ "\"").length).1 = LP_SUCCESS) :
    ∃ cap, lp_add_field_string b key value =
      (LP_SUCCESS,
       { b with
           buffer := b.buffer ++ ((if b.has_fields then "," else " ") ++ key ++
             "=\"" ++ escape_string value ++ "\"")
           capacity := cap
           has_fields := true }) := by
  obtain ⟨cap, happ⟩ := append_string_success_shape b _ hcapa
  refine ⟨cap, ?_⟩
  simp only [lp_add_field_string, hfin, hm, hk, happ]
  cases hf : b.has_fields <;> simp_all

/-- A capacity failure makes `lp_add_field_string` fail. -/
theorem lp_add_field_string_capacity_failure (b : LineProtocolBuilder)
    (key value : String)
    (hfin : b.finalized = false) (hm : b.has_measurement = true)
    (hk : lp_is_valid_field_key key = true)
    (hcapa : (ensure_capacity b ((if b.has_fields then "," else " ") ++ key ++
        "=\"" ++ escape_string value ++ "\"").length).1 ≠ LP_SUCCESS) :
    (lp_add_field_string b key value).1 ≠ LP_SUCCESS := by
  have happ := append_string_failure_shape b _ hcapa
  obtain ⟨cap, hcap⟩ := ensure_capacity_shape b ((if b.has_fields then "," else " ") ++
    key ++ "=\"" ++ escape_string value ++ "\"").length
  simp only [lp_add_field_string, hfin, hm, hk, happ]
  rw [show ensure_capacity b ((if b.has_fields then "," else " ") ++ key ++
      "=\"" ++ escape_string value ++ "\"").length =
      ((ensure_capacity b ((if b.has_fields then "," else " ") ++ key ++
        "=\"" ++ escape_string value ++ "\"").length).1, { b with capacity := cap })
    from Prod.ext rfl hcap]
  split <;> simp_all

/-- C6: a successful `lp_add_field_string` writes the value wrapped in
double quotes with each `"` and `\` prefixed by one backslash and all
other bytes unchanged, and unescaping recovers the original bytes of every
input string. -/
theorem C6_string_field_escaping (b : LineProtocolBuilder) (key value : String)
    (hok : (lp_add_field_string b key value).1 = LP_SUCCESS) :
    (lp_add_field_string b key value).2.buffer =
      b.buffer ++ ((if b.has_fields then "," else " ") ++ key ++ "=\"" ++
        escape_string value ++ "\"") ∧
    (∀ s : String, unescape_string (escape_string s) = s) := by
  refine ⟨?_, fun s => ?_⟩
  · have hfin : b.finalized = false := by
      by_contra hf
      rw [Bool.not_eq_false] at hf
      simp [lp_add_field_string, hf] at hok
    have hm : b.has_measurement = true := by
      by_contra hf
      rw [Bool.not_eq_true] at hf
      simp [lp_add_field_string, hfin, hf] at hok
    have hk : lp_is_valid_field_key key = true := by
      by_contra hf
      rw [Bool.not_eq_true] at hf
      simp [lp_add_field_string, hfin, hm, hf] at hok
    by_cases hcapa : (ensure_capacity b ((if b.has_fields then "," else " ") ++
        key ++ "=\"" ++ escape_string value ++ "\"").length).1 = LP_SUCCESS
    · obtain ⟨cap, heq⟩ := lp_add_field_string_success b key value hfin hm hk hcapa
      rw [heq]
    · exact absurd hok
        (lp_add_field_string_capacity_failure b key value hfin hm hk hcapa)
  · show String.mk (unescape_chars (escape_chars s.data)) = s
    rw [unescape_escape_chars]

/-- Witness for C6 on a fresh measured builder and a value containing a
quote and a backslash. -/
theorem C6_witness :
    (lp_add_field_string freshMeasured "k" "a\"b\\c").1 = LP_SUCCESS ∧
    ((lp_add_field_string freshMeasured "k" "a\"b\\c").2.buffer =
      freshMeasured.buffer ++
        ((if freshMeasured.has_fields then "," else " ") ++ "k" ++ "=\"" ++
          escape_string "a\"b\\c" ++ "\"") ∧
      (∀ s : String, unescape_string (escape_string s) = s)) :=
  ⟨by decide, C6_string_field_escaping freshMeasured "k" "a\"b\\c" (by decide)⟩

/-! ## Claim C8: buffer growth policy -/

/-- Doubling a power of two below another power of two stays within it. -/
theorem two_pow_succ_le_of_lt {k n : Nat} (h : 2 ^ k < 2 ^ n) :
    2 ^ (k + 1) ≤ 2 ^ n := by
  have hk : k < n := by
    by_contra hc
    push_neg at hc
    exact absurd h (not_lt.mpr (Nat.pow_le_pow_right (by norm_num) hc))
  exact Nat.pow_le_pow_right (by norm_num) hk

/-- The doubling loop reaches at least the required capacity. -/
theorem growLoop_ge : ∀ (required c : Nat), 0 < c → required ≤ growLoop required c
  | required, c, h => by
    rw [growLoop.eq_def]
    split
    next hcond => exact growLoop_ge required (c * 2) (by omega)
    next hcond => omega
termination_by required c => required - c
decreasing_by omega

/-- Started at a power of two within the hard maximum, the doubling loop
never overshoots the hard maximum while the requirement fits in it. -/
theorem growLoop_pow2_le : ∀ (required c k : Nat), c = 2 ^ k → c ≤ 2 ^ 20 →
    required ≤ 2 ^ 20 → growLoop required c ≤ 2 ^ 20
  | required, c, k, hck, hcm, hrm => by
    rw [growLoop.eq_def]
    split
    next hcond =>
      refine growLoop_pow2_le required (c * 2) (k + 1) (by subst hck; ring) ?_ hrm
      subst hck
      exact two_pow_succ_le_of_lt (by omega)
    next hcond => exact hcm
termination_by required c k => required - c
decreasing_by omega

/-- `LP_MAX_CAPACITY` as a power of two. -/
theorem LP_MAX_CAPACITY_eq : LP_MAX_CAPACITY = 2 ^ 20 := by
  norm_num [LP_MAX_CAPACITY]

/-- C8 (amended): for a builder whose capacity is a power of two at most
1 MiB (as the default 1024 and the minimum 64 are), every append whose
required total size (position + appended length + 1) is at most 1 MiB
succeeds by repeatedly doubling the capacity; a requirement beyond the
1 MiB hard maximum fails with `LP_ERROR_BUFFER_FULL` leaving the builder
unchanged rather than growing; a builder is created with capacity 1024 by
default, any requested capacity below 64 is raised to 64, and a requested
capacity above 1 MiB yields no builder.  (For a capacity that is not a
power of two the doubling can overshoot 1 MiB and fail even though the
required size fits; see the counterexample.) -/
theorem C8_buffer_growth :
    (∀ (b : LineProtocolBuilder) (needed k : Nat), b.capacity = 2 ^ k →
      b.capacity ≤ LP_MAX_CAPACITY →
      b.buffer.length + needed + 1 ≤ LP_MAX_CAPACITY →
      (ensure_capacity b needed).1 = LP_SUCCESS) ∧
    (∀ (b : LineProtocolBuilder) (needed : Nat), 0 < b.capacity →
      b.capacity ≤ LP_MAX_CAPACITY →
      LP_MAX_CAPACITY < b.buffer.length + needed + 1 →
      ensure_capacity b needed = (LP_ERROR_BUFFER_FULL, b)) ∧
    (∃ b, lp_builder_create_default = some b ∧ b.capacity = 1024) ∧
    (∀ n, n < 64 → lp_builder_create n = lp_builder_create 64) ∧
    (∀ n, 64 ≤ n → n ≤ LP_MAX_CAPACITY →
      ∃ b, lp_builder_create n = some b ∧ b.capacity = n) ∧
    (∀ n, LP_MAX_CAPACITY < n → lp_builder_create n = none) := by
  refine ⟨?_, ?_, ?_, ?_, ?_, ?_⟩
  · intro b needed k hck hcm hreq
    rw [ensure_capacity_def]
    split
    · rfl
    next hgt =>
      rw [if_neg]
      push_neg at hgt
      have hcap2 : b.capacity * LP_GROWTH_FACTOR = 2 ^ (k + 1) := by
        rw [hck, LP_GROWTH_FACTOR]
        ring
      rw [not_lt]
      rw [hcap2]
      rw [LP_MAX_CAPACITY_eq] at hcm hreq ⊢
      refine growLoop_pow2_le _ _ (k + 1) rfl ?_ hreq
      exact two_pow_succ_le_of_lt (by omega)
  · intro b needed hpos hcm hreq
    rw [ensure_capacity_def]
    rw [if_neg (by omega)]
    rw [if_pos]
    have hge := growLoop_ge (b.buffer.length + needed + 1)
      (b.capacity * LP_GROWTH_FACTOR) (by simp [LP_GROWTH_FACTOR]; omega)
    omega
  · exact ⟨_, rfl, rfl⟩
  · intro n hn
    simp [lp_builder_create, hn]
  · intro n h64 hmax
    simp only [lp_builder_create]
    rw [if_neg (show ¬ n < 64 by omega)]
    rw [if_neg (show ¬ n > LP_MAX_CAPACITY by omega)]
    exact ⟨_, rfl, rfl⟩
  · intro n hmax
    have h64 : ¬ n < 64 := by
      have : (1024 * 1024 : Nat) < n := by simpa [LP_MAX_CAPACITY] using hmax
      omega
    simp only [lp_builder_create]
    rw [if_neg h64]
    rw [if_pos (show n > LP_MAX_CAPACITY from hmax)]

/-- Witness for C8 with a default-capacity builder and a small append. -/
theorem C8_witness :
    freshMeasured.capacity = 2 ^ 10 ∧
    freshMeasured.capacity ≤ LP_MAX_CAPACITY ∧
    freshMeasured.buffer.length + 100 + 1 ≤ LP_MAX_CAPACITY ∧
    (ensure_capacity freshMeasured 100).1 = LP_SUCCESS :=
  ⟨by decide, by decide, by decide,
   C8_buffer_growth.1 freshMeasured 100 10 (by decide) (by decide) (by decide)⟩

/-- C8 counterexample: with the admissible capacity 600000 (not a power of
two) and a required total size of exactly 1 MiB, the doubled capacity
overshoots the hard maximum and the append fails with
`LP_ERROR_BUFFER_FULL`, contrary to the claim that every append whose
required size fits in 1 MiB succeeds. -/
theorem C8_counterexample :
    oddCapacityBuilder.capacity ≤ LP_MAX_CAPACITY ∧
    oddCapacityBuilder.buffer.length + 1048575 + 1 ≤ LP_MAX_CAPACITY ∧
    ensure_capacity oddCapacityBuilder 1048575 =
      (LP_ERROR_BUFFER_FULL, oddCapacityBuilder) := by
  refine ⟨by decide, by decide, ?_⟩
  rw [ensure_capacity_def]
  rw [show oddCapacityBuilder.buffer.length + 1048575 + 1 = 1048576 from by decide]
  rw [if_neg (by decide)]
  rw [show oddCapacityBuilder.capacity * LP_GROWTH_FACTOR = 1200000 from by decide]
  rw [show growLoop 1048576 1200000 = 1200000 from by rw [growLoop.eq_def]; norm_num]
  rw [if_pos (by decide)]

/-! ## Claim C7: finalization via `lp_copy` -/

/-- A successful timestamp append, stated through `ensure_capacity`. -/
theorem lp_set_timestamp_success (b : LineProtocolBuilder) (now : Int)
    (hfin : b.finalized = false) (hm : b.has_measurement = true)
    (hf : b.has_fields = true)
    (hcapa : (ensure_capacity b (" " ++ toString now).length).1 = LP_SUCCESS) :
    ∃ cap, lp_set_timestamp b now =
      (LP_SUCCESS,
       { b with
           buffer := b.buffer ++ (" " ++ toString now)
           capacity := cap
           has_timestamp := true }) := by
  obtain ⟨cap, happ⟩ := append_string_success_shape b _ hcapa
  refine ⟨cap, ?_⟩
  simp only [lp_set_timestamp, hfin, hm, hf, happ]
  simp

/-- A failing timestamp append leaves the builder unchanged and propagates
the `ensure_capacity` error. -/
theorem lp_set_timestamp_failure (b : LineProtocolBuilder) (now : Int)
    (hfin : b.finalized = false) (hm : b.has_measurement = true)
    (hf : b.has_fields = true)
    (hcapa : (ensure_capacity b (" " ++ toString now).length).1 ≠ LP_SUCCESS) :
    lp_set_timestamp b now = ensure_capacity b (" " ++ toString now).length := by
  have happ := append_string_failure_shape b _ hcapa
  simp only [lp_set_timestamp, hfin, hm, hf, happ]
  rw [if_pos hcapa]
  simp

/-- C7 (amended): `lp_copy` returns no result when the builder lacks a
measurement or lacks a field; otherwise, when no timestamp was set, the
builder is not finalized and the timestamp append fits in the buffer cap,
it first appends the wall-clock timestamp, then marks the builder
finalized and returns a copy of the complete record.  (If the timestamp
append overflows the 1 MiB cap, `lp_copy` instead returns no result; see
the counterexample.) -/
theorem C7_copy_finalization (b : LineProtocolBuilder) (now : Int) :
    ((b.has_measurement = false ∨ b.has_fields = false) →
      lp_copy now b = (none, b)) ∧
    (b.has_measurement = true → b.has_fields = true →
      b.has_timestamp = false → b.finalized = false →
      (ensure_capacity b (" " ++ toString now).length).1 = LP_SUCCESS →
      ∃ cap, lp_copy now b =
        (some (b.buffer ++ (" " ++ toString now)),
         { b with
             buffer := b.buffer ++ (" " ++ toString now)
             capacity := cap
             has_timestamp := true
             finalized := true })) := by
  constructor
  · rintro (h | h) <;> simp [lp_copy, h]
  · intro hm hf ht hfin hcapa
    obtain ⟨cap, hts⟩ := lp_set_timestamp_success b now hfin hm hf hcapa
    refine ⟨cap, ?_⟩
    simp only [lp_copy, hm, hf, ht, hts]
    simp

/-- Witness for C7 on a small builder with measurement and field. -/
theorem C7_witness :
    measuredWithField.has_measurement = true ∧
    measuredWithField.has_fields = true ∧
    measuredWithField.has_timestamp = false ∧
    measuredWithField.finalized = false ∧
    (ensure_capacity measuredWithField (" " ++ toString (1700000000 : Int)).length).1 =
      LP_SUCCESS ∧
    ∃ cap, lp_copy 1700000000 measuredWithField =
      (some (measuredWithField.buffer ++ (" " ++ toString (1700000000 : Int))),
       { measuredWithField with
           buffer := measuredWithField.buffer ++ (" " ++ toString (1700000000 : Int))
           capacity := cap
           has_timestamp := true
           finalized := true }) :=
  ⟨rfl, rfl, rfl, rfl, by decide,
   (C7_copy_finalization measuredWithField 1700000000).2 rfl rfl rfl rfl (by decide)⟩

/-- C7 counterexample: a builder one byte short of the 1 MiB cap has a
measurement and fields and no timestamp, yet `lp_copy` returns no result
(NULL) because appending the timestamp overflows the cap, contrary to the
claim that it always finalizes and returns a copy in this situation. -/
theorem C7_counterexample :
    nearFullBuilder.has_measurement = true ∧
    nearFullBuilder.has_fields = true ∧
    nearFullBuilder.has_timestamp = false ∧
    lp_copy 0 nearFullBuilder = (none, nearFullBuilder) := by
  refine ⟨rfl, rfl, rfl, ?_⟩
  have hlen : nearFullBuilder.buffer.length = 1048575 := by
    show (List.replicate 1048575 'a').length = 1048575
    rw [List.length_replicate]
  have hslen : (" " ++ toString (0 : Int)).length = 2 := by decide
  have hens : ensure_capacity nearFullBuilder (" " ++ toString (0 : Int)).length =
      (LP_ERROR_BUFFER_FULL, nearFullBuilder) := by
    rw [ensure_capacity_def, hslen, hlen]
    rw [if_neg (show ¬ 1048575 + 2 + 1 ≤ nearFullBuilder.capacity by decide)]
    rw [show nearFullBuilder.capacity * LP_GROWTH_FACTOR = 2097152 from by decide]
    rw [show growLoop (1048575 + 2 + 1) 2097152 = 2097152 from by
      rw [growLoop.eq_def]; norm_num]
    rw [if_pos (by decide)]
  have hts : lp_set_timestamp nearFullBuilder 0 =
      (LP_ERROR_BUFFER_FULL, nearFullBuilder) := by
    rw [lp_set_timestamp_failure nearFullBuilder 0 rfl rfl rfl
      (by rw [hens]; decide), hens]
  have hm' : nearFullBuilder.has_measurement = true := rfl
  have hf' : nearFullBuilder.has_fields = true := rfl
  have ht' : nearFullBuilder.has_timestamp = false := rfl
  simp only [lp_copy, hm', hf', ht', hts]
  simp

/-! ## Correspondence between the replay loop and its line-level form -/

/-- Reading a line shorter than the budget consumes it with its newline. -/
theorem read_line_short (maxChars : Nat) (l rest : List Char)
    (hlen : l.length < maxChars) (hnl : '\n' ∉ l) :
    read_line maxChars (l ++ '\n' :: rest) = (l ++ ['\n'], rest) := by
  induction l generalizing maxChars with
  | nil =>
    cases maxChars with
    | zero => omega
    | succ m => simp [read_line]
  | cons c cs ih =>
    cases maxChars with
    | zero => simp at hlen
    | succ m =>
      have hc : ¬ c = '\n' := fun h => hnl (h ▸ List.mem_cons_self c cs)
      have hlen' : cs.length < m := by
        simp only [List.length_cons] at hlen
        omega
      have hrec := ih m hlen' (fun h => hnl (List.mem_cons_of_mem c h))
      simp [read_line, hc, hrec]

/-- Reading exactly the budget stops without the newline. -/
theorem read_line_full (maxChars : Nat) (l rest : List Char)
    (hlen : l.length = maxChars) (hnl : '\n' ∉ l) :
    read_line maxChars (l ++ rest) = (l, rest) := by
  induction l generalizing maxChars with
  | nil =>
    have h0 : maxChars = 0 := by simpa using hlen.symm
    subst h0
    cases rest <;> simp [read_line]
  | cons c cs ih =>
    cases maxChars with
    | zero => simp at hlen
    | succ m =>
      have hc : ¬ c = '\n' := fun h => hnl (h ▸ List.mem_cons_self c cs)
      have hlen' : cs.length = m := by
        simp only [List.length_cons] at hlen
        omega
      have hrec := ih m hlen' (fun h => hnl (List.mem_cons_of_mem c h))
      simp [read_line, hc, hrec]

/-- `strip_crlf` ignores everything from the first newline on. -/
theorem strip_crlf_append_newline (l rest : List Char) :
    strip_crlf (l ++ '\n' :: rest) = strip_crlf l := by
  induction l with
  | nil => simp [strip_crlf]
  | cons c cs ih =>
    simp only [strip_crlf, List.cons_append, List.takeWhile_cons] at ih ⊢
    split
    · rw [ih]
    · rfl

/-- `strip_crlf` is the identity on clean lines. -/
theorem strip_crlf_eq_self (l : List Char)
    (h : ∀ c ∈ l, c ≠ '\n' ∧ c ≠ '\r') : strip_crlf l = l := by
  induction l with
  | nil => rfl
  | cons c cs ih =>
    obtain ⟨h1, h2⟩ := h c (List.mem_cons_self c cs)
    have hcons : strip_crlf (c :: cs) = c :: strip_crlf cs := by
      simp only [strip_crlf, List.takeWhile_cons]
      rw [if_pos (by simp [h1, h2])]
    rw [hcons, ih (fun x hx => h x (List.mem_cons_of_mem c hx))]

/-- `replay_loop` and `replay_lines` agree on an exhausted input. -/
theorem replay_loop_nil (send_func : String → Bool) (batch tmp : List String)
    (failed : Bool) (sent : List String) :
    replay_loop send_func [] batch tmp failed sent =
      replay_lines send_func [] batch tmp failed sent := by
  rw [replay_loop.eq_def]
  rfl

/-- One step of `replay_loop` on a nonempty input. -/
theorem replay_loop_ne_nil (send_func : String → Bool) (input : List Char)
    (hne : input ≠ []) (batch tmp : List String) (failed : Bool)
    (sent : List String) :
    replay_loop send_func input batch tmp failed sent =
      (let rl := read_line (MAX_LINE_LENGTH - 1) input
       let line := strip_crlf rl.1
       if line.length = 0 then replay_loop send_func rl.2 batch tmp failed sent
       else
         let line_with_newline := String.mk (line ++ ['\n'])
         let batch' := batch ++ [line_with_newline]
         if batch'.length = MAX_BATCH_SIZE then
           let pb := process_batch send_func batch'
           replay_loop send_func rl.2 []
             (if pb.1 then tmp else tmp ++ batch') (failed || !pb.1)
             (sent ++ pb.2)
         else replay_loop send_func rl.2 batch' tmp failed sent) := by
  obtain ⟨c, cs, rfl⟩ : ∃ c cs, input = c :: cs := by
    cases input with
    | nil => exact absurd rfl hne
    | cons c cs => exact ⟨c, cs, rfl⟩
  rw [replay_loop.eq_def]

/-- The characters of a joined string list. -/
theorem string_join_data (ls : List String) :
    (String.join ls).data = (ls.map String.data).join := by
  suffices h : ∀ acc : String,
      (ls.foldl (· ++ ·) acc).data = acc.data ++ (ls.map String.data).join by
    simpa [String.join] using h ""
  induction ls with
  | nil => intro acc; simp
  | cons l ls ih =>
    intro acc
    simp only [List.foldl_cons, List.map_cons, List.join]
    rw [ih (acc ++ l)]
    simp

/-- `spool_batches` of no entries. -/
theorem spool_batches_nil : spool_batches [] = [] := by
  rw [spool_batches.eq_def]
  simp

/-- A single batch of at most `MAX_BATCH_SIZE` entries. -/
theorem spool_batches_single (entries : List String) (hne : entries ≠ [])
    (hle : entries.length ≤ MAX_BATCH_SIZE) :
    spool_batches entries = [entries] := by
  rw [spool_batches.eq_def, dif_neg hne, List.take_of_length_le hle,
    List.drop_eq_nil_of_le hle, spool_batches_nil]

/-- Splitting off a full batch. -/
theorem spool_batches_chunk (x es : List String)
    (hx : x.length = MAX_BATCH_SIZE) :
    spool_batches (x ++ es) = x :: spool_batches es := by
  have hne : x ++ es ≠ [] := by
    intro h
    rcases List.append_eq_nil.mp h with ⟨hx0, -⟩
    rw [hx0] at hx
    simp [MAX_BATCH_SIZE] at hx
  rw [spool_batches.eq_def, dif_neg hne, List.take_left' hx, List.drop_left' hx]

/-- The line-level replay loop described through `spool_batches`: the
temporary file collects the failed batches in order, the failure flag
records whether any batch failed, and every batch is handed to the
callback. -/
theorem replay_lines_spec (send_func : String → Bool) (es : List String) :
    ∀ batch tmp failed sent, batch.length < MAX_BATCH_SIZE →
      replay_lines send_func es batch tmp failed sent =
        (tmp ++ ((spool_batches (batch ++ es)).filter
            (fun bb => !send_func (String.join bb))).join,
         failed || ((spool_batches (batch ++ es)).any
            (fun bb => !send_func (String.join bb))),
         sent ++ (spool_batches (batch ++ es)).map String.join) := by
  induction es with
  | nil =>
    intro batch tmp failed sent hlt
    by_cases hb : batch = []
    · subst hb
      simp only [replay_lines, List.append_nil, spool_batches_nil]
      simp
    · have hlen0 : batch.length ≠ 0 := by
        simpa [List.length_eq_zero] using hb
      have hsb : spool_batches (batch ++ []) = [batch] := by
        rw [List.append_nil]
        exact spool_batches_single batch hb (by omega)
      simp only [replay_lines, hsb]
      rw [if_pos hlen0]
      simp only [process_batch]
      rw [if_neg hlen0]
      cases hsend : send_func (String.join batch) <;> simp [hsend]
  | cons e es ih =>
    intro batch tmp failed sent hlt
    simp only [replay_lines]
    by_cases hb : (batch ++ [e]).length = MAX_BATCH_SIZE
    · rw [if_pos hb]
      simp only [process_batch]
      rw [if_neg (show ¬ (batch ++ [e]).length = 0 from by
        rw [hb]; simp [MAX_BATCH_SIZE])]
      rw [ih [] _ _ _ (by simp [MAX_BATCH_SIZE])]
      rw [show batch ++ e :: es = (batch ++ [e]) ++ es from by simp]
      rw [spool_batches_chunk _ _ hb]
      cases hsend : send_func (String.join (batch ++ [e])) <;> simp [hsend]
    · rw [if_neg hb]
      have hlt' : (batch ++ [e]).length < MAX_BATCH_SIZE := by
        simp only [List.length_append, List.length_cons, List.length_nil] at hb ⊢
        simp only [MAX_BATCH_SIZE] at hb hlt ⊢
        omega
      rw [ih (batch ++ [e]) _ _ _ hlt']
      rw [show batch ++ e :: es = (batch ++ [e]) ++ es from by simp]

/-- A spool file of nonempty lines, each shorter than the `fgets` budget
and free of embedded newlines, replays exactly as its stripped,
newline-terminated line entries. -/
theorem replay_loop_short_lines (send_func : String → Bool) :
    ∀ lines : List String,
      (∀ l ∈ lines, l.data ≠ [] ∧ l.length ≤ 2046 ∧ '\n' ∉ l.data ∧
        strip_crlf l.data ≠ []) →
      ∀ batch tmp failed sent,
        replay_loop send_func (encode_lines lines) batch tmp failed sent =
          replay_lines send_func
            (lines.map (fun l => String.mk (strip_crlf l.data ++ ['\n'])))
            batch tmp failed sent := by
  intro lines
  induction lines with
  | nil =>
    intro hwf batch tmp failed sent
    exact replay_loop_nil send_func batch tmp failed sent
  | cons l ls ih =>
    intro hwf batch tmp failed sent
    obtain ⟨hne, hlen, hnl, hstrip⟩ := hwf l (List.mem_cons_self l ls)
    have hwf' : ∀ x ∈ ls, x.data ≠ [] ∧ x.length ≤ 2046 ∧ '\n' ∉ x.data ∧
        strip_crlf x.data ≠ [] := fun x hx => hwf x (List.mem_cons_of_mem l hx)
    have henc : encode_lines (l :: ls) = l.data ++ '\n' :: encode_lines ls := by
      simp [encode_lines]
    have hinne : l.data ++ '\n' :: encode_lines ls ≠ [] := by
      cases hld : l.data with
      | nil => exact absurd hld hne
      | cons c cs => simp
    have hdlen : l.data.length < MAX_LINE_LENGTH - 1 := by
      have h1 : l.data.length ≤ 2046 := hlen
      have h2 : MAX_LINE_LENGTH - 1 = 2047 := by norm_num [MAX_LINE_LENGTH]
      omega
    have hread : read_line (MAX_LINE_LENGTH - 1)
        (l.data ++ '\n' :: encode_lines ls) = (l.data ++ ['\n'], encode_lines ls) :=
      read_line_short _ _ _ hdlen hnl
    have hstrip1 : strip_crlf (l.data ++ ['\n']) = strip_crlf l.data :=
      strip_crlf_append_newline l.data []
    have hstriplen : ¬ (strip_crlf l.data).length = 0 := by
      simpa [List.length_eq_zero] using hstrip
    rw [henc, replay_loop_ne_nil send_func _ hinne]
    simp only [hread, hstrip1]
    rw [if_neg hstriplen]
    simp only [List.map_cons]
    simp only [replay_lines]
    by_cases hb :
        (batch ++ [String.mk (strip_crlf l.data ++ ['\n'])]).length = MAX_BATCH_SIZE
    · rw [if_pos hb, if_pos hb]
      exact ih hwf' [] _ _ _
    · rw [if_neg hb, if_neg hb]
      exact ih hwf' _ _ _ _

/-- `chop2047` of no characters. -/
theorem chop2047_nil : chop2047 [] = [] := by
  rw [chop2047.eq_def]
  simp

/-- A record that fits in one `fgets` read is a single piece. -/
theorem chop2047_short (cs : List Char) (hne : cs ≠ [])
    (hle : cs.length ≤ 2047) : chop2047 cs = [cs] := by
  rw [chop2047.eq_def, dif_neg hne, List.take_of_length_le hle,
    List.drop_eq_nil_of_le hle, chop2047_nil]

/-- A longer record starts with one full 2047-character piece. -/
theorem chop2047_step (cs : List Char) (hgt : 2047 < cs.length) :
    chop2047 cs = cs.take 2047 :: chop2047 (cs.drop 2047) := by
  rw [chop2047.eq_def, dif_neg (by
    intro h
    rw [h] at hgt
    simp at hgt)]

/-- A single spooled record with no newline or carriage return inside is
read back through the 2048-byte `fgets` buffer as its 2047-character
pieces, each newline-terminated. -/
theorem replay_loop_long_record (send_func : String → Bool) :
    ∀ (n : Nat) (cs : List Char), cs.length = n → cs ≠ [] →
      (∀ c ∈ cs, c ≠ '\n' ∧ c ≠ '\r') →
      ∀ batch tmp failed sent,
        replay_loop send_func (cs ++ ['\n']) batch tmp failed sent =
          replay_lines send_func
            ((chop2047 cs).map (fun p => String.mk (p ++ ['\n'])))
            batch tmp failed sent := by
  intro n
  induction n using Nat.strong_induction_on with
  | _ n ihn =>
    intro cs hcslen hne hclean batch tmp failed sent
    have hnl : '\n' ∉ cs := fun h => (hclean _ h).1 rfl
    have hinne : cs ++ ['\n'] ≠ [] := by simp
    have hstriplen : ¬ (strip_crlf cs).length = 0 := by
      rw [strip_crlf_eq_self cs hclean]
      simpa [List.length_eq_zero] using hne
    by_cases hsmall : cs.length ≤ 2046
    · have hread : read_line (MAX_LINE_LENGTH - 1) (cs ++ '\n' :: []) =
          (cs ++ ['\n'], []) :=
        read_line_short _ _ _ (by norm_num [MAX_LINE_LENGTH]; omega) hnl
      rw [replay_loop_ne_nil send_func _ hinne]
      simp only [hread, strip_crlf_append_newline cs [],
        strip_crlf_eq_self cs hclean]
      rw [if_neg (by simpa [List.length_eq_zero] using hne)]
      rw [chop2047_short cs hne (by omega)]
      simp only [List.map_cons, List.map_nil]
      simp only [replay_lines]
      by_cases hb : (batch ++ [String.mk (cs ++ ['\n'])]).length = MAX_BATCH_SIZE
      · rw [if_pos hb, if_pos hb]
        exact replay_loop_nil send_func _ _ _ _
      · rw [if_neg hb, if_neg hb]
        exact replay_loop_nil send_func _ _ _ _
    · by_cases hfull : cs.length = 2047
      · have hread : read_line (MAX_LINE_LENGTH - 1) (cs ++ ['\n']) =
            (cs, ['\n']) :=
          read_line_full _ _ _ (by norm_num [MAX_LINE_LENGTH]; omega) hnl
        have hskip : ∀ b t f s, replay_loop send_func ['\n'] b t f s =
            replay_lines send_func [] b t f s := by
          intro b t f s
          rw [replay_loop_ne_nil send_func _ (by simp)]
          have hr : read_line (MAX_LINE_LENGTH - 1) ['\n'] = (['\n'], []) := by
            simpa using read_line_short (MAX_LINE_LENGTH - 1) [] []
              (by norm_num [MAX_LINE_LENGTH]) (by simp)
          simp only [hr]
          rw [if_pos (show (strip_crlf ['\n']).length = 0 from rfl)]
          exact replay_loop_nil send_func b t f s
        rw [replay_loop_ne_nil send_func _ hinne]
        simp only [hread, strip_crlf_eq_self cs hclean]
        rw [if_neg (by simpa [List.length_eq_zero] using hne)]
        rw [chop2047_short cs hne (by omega)]
        simp only [List.map_cons, List.map_nil]
        simp only [replay_lines]
        by_cases hb : (batch ++ [String.mk (cs ++ ['\n'])]).length = MAX_BATCH_SIZE
        · rw [if_pos hb, if_pos hb]
          exact hskip _ _ _ _
        · rw [if_neg hb, if_neg hb]
          exact hskip _ _ _ _
      · have hgt : 2047 < cs.length := by omega
        have htake : (cs.take 2047).length = 2047 := by
          rw [List.length_take]
          omega
        have hsplit : cs ++ ['\n'] = cs.take 2047 ++ (cs.drop 2047 ++ ['\n']) := by
          rw [← List.append_assoc, List.take_append_drop]
        have hnltake : '\n' ∉ cs.take 2047 :=
          fun h => hnl (List.mem_of_mem_take h)
        have hread : read_line (MAX_LINE_LENGTH - 1) (cs ++ ['\n']) =
            (cs.take 2047, cs.drop 2047 ++ ['\n']) := by
          rw [hsplit]
          exact read_line_full _ _ _
            (by rw [htake]; norm_num [MAX_LINE_LENGTH]) hnltake
        have htclean : ∀ c ∈ cs.take 2047, c ≠ '\n' ∧ c ≠ '\r' :=
          fun c hc => hclean c (List.mem_of_mem_take hc)
        have hdropne : cs.drop 2047 ≠ [] := by
          intro h
          have hx : (cs.drop 2047).length = 0 := by rw [h]; rfl
          rw [List.length_drop] at hx
          omega
        have hdropclean : ∀ c ∈ cs.drop 2047, c ≠ '\n' ∧ c ≠ '\r' :=
          fun c hc => hclean c (List.mem_of_mem_drop hc)
        have ihd := ihn (cs.length - 2047) (by omega) (cs.drop 2047)
          (by rw [List.length_drop]) hdropne hdropclean
        rw [replay_loop_ne_nil send_func _ hinne]
        simp only [hread, strip_crlf_eq_self _ htclean]
        rw [if_neg (by rw [htake]; norm_num)]
        rw [chop2047_step cs hgt]
        simp only [List.map_cons]
        simp only [replay_lines]
        by_cases hb :
            (batch ++ [String.mk (cs.take 2047 ++ ['\n'])]).length = MAX_BATCH_SIZE
        · rw [if_pos hb, if_pos hb]
          exact ihd _ _ _ _
        · rw [if_neg hb, if_neg hb]
          exact ihd _ _ _ _

/-! ## Claim C10: records longer than 2047 bytes are split on replay -/

/-- Bound on the number of pieces a record is cut into. -/
theorem chop2047_length_le : ∀ (n : Nat) (l : List Char),
    l.length ≤ 2047 * n → (chop2047 l).length ≤ n := by
  intro n
  induction n with
  | zero =>
    intro l hl
    have hnil : l = [] := by
      cases l with
      | nil => rfl
      | cons a as => exact absurd hl (by simp)
    subst hnil
    simp [chop2047_nil]
  | succ m ih =>
    intro l hl
    by_cases hnil : l = []
    · subst hnil
      simp [chop2047_nil]
    · by_cases hsm : l.length ≤ 2047
      · rw [chop2047_short l hnil hsm]
        simp
      · rw [chop2047_step l (by omega)]
        have hrec := ih (l.drop 2047) (by
          rw [List.length_drop]
          omega)
        simp only [List.length_cons]
        omega

/-- A record longer than one `fgets` read yields at least two pieces. -/
theorem chop2047_two_le (l : List Char) (h : 2047 < l.length) :
    2 ≤ (chop2047 l).length := by
  rw [chop2047_step l h]
  have hdne : l.drop 2047 ≠ [] := by
    intro hx
    have hlen := congrArg List.length hx
    rw [List.length_drop] at hlen
    simp only [List.length_nil] at hlen
    omega
  cases hcd : chop2047 (l.drop 2047) with
  | nil =>
    exfalso
    rw [chop2047.eq_def, dif_neg hdne] at hcd
    simp at hcd
  | cons x xs => simp [hcd]

/-- C10: a spooled record longer than 2047 bytes (within the serializer's
1 MiB record bound) is not presented to the send callback as a single
line: the replay loop reads it through the 2048-byte `fgets` buffer, so
the single batch handed to the callback consists of its 2047-character
pieces, each newline-terminated, at least two of them. -/
theorem C10_long_record_split (send_func : String → Bool) (r : String)
    (hlong : 2047 < r.length) (hmax : r.length ≤ LP_MAX_CAPACITY)
    (hclean : ∀ c ∈ r.data, c ≠ '\n' ∧ c ≠ '\r') :
    (offline_queue_process send_func (some (r.data ++ ['\n']))).sent =
      [String.join ((chop2047 r.data).map (fun p => String.mk (p ++ ['\n'])))] ∧
    2 ≤ (chop2047 r.data).length := by
  have hdata_ne : r.data ≠ [] := by
    intro h
    have h0 : r.length = 0 := by
      show r.data.length = 0
      rw [h]
      rfl
    omega
  have hlong' : 2047 < r.data.length := hlong
  have hchopne : (chop2047 r.data).map (fun p => String.mk (p ++ ['\n'])) ≠ [] := by
    rw [chop2047_step r.data hlong']
    simp
  have hlen_entries :
      ((chop2047 r.data).map (fun p => String.mk (p ++ ['\n']))).length ≤
        MAX_BATCH_SIZE := by
    rw [List.length_map]
    have h513 : (chop2047 r.data).length ≤ 513 := by
      refine chop2047_length_le 513 r.data ?_
      have hh : r.data.length ≤ LP_MAX_CAPACITY := hmax
      norm_num [LP_MAX_CAPACITY] at hh ⊢
      omega
    simp only [MAX_BATCH_SIZE]
    omega
  have hsb : spool_batches
      ((chop2047 r.data).map (fun p => String.mk (p ++ ['\n']))) =
      [(chop2047 r.data).map (fun p => String.mk (p ++ ['\n']))] :=
    spool_batches_single _ hchopne hlen_entries
  have hrun := replay_loop_long_record send_func r.data.length r.data rfl
    hdata_ne hclean [] [] false []
  rw [replay_lines_spec send_func
    ((chop2047 r.data).map (fun p => String.mk (p ++ ['\n'])))
    [] [] false [] (by simp [MAX_BATCH_SIZE])] at hrun
  simp only [List.nil_append] at hrun
  rw [hsb] at hrun
  have hemp : (r.data ++ ['\n']).isEmpty = false := by
    cases hx : r.data with
    | nil => exact absurd hx hdata_ne
    | cons c cs => rfl
  refine ⟨?_, chop2047_two_le r.data hlong'⟩
  simp only [offline_queue_process]
  rw [if_neg (by simp [hemp])]
  rw [hrun]
  cases hsend :
      send_func (String.join ((chop2047 r.data).map (fun p => String.mk (p ++ ['\n'])))) <;>
    simp [hsend]

/-- Witness for C10 on a 2048-character record. -/
theorem C10_witness :
    2047 < longRecord.length ∧ longRecord.length ≤ LP_MAX_CAPACITY ∧
    (∀ c ∈ longRecord.data, c ≠ '\n' ∧ c ≠ '\r') ∧
    ((offline_queue_process (fun _ => true)
        (some (longRecord.data ++ ['\n']))).sent =
      [String.join ((chop2047 longRecord.data).map
        (fun p => String.mk (p ++ ['\n'])))] ∧
     2 ≤ (chop2047 longRecord.data).length) := by
  have hlen : longRecord.length = 2048 := by
    show (List.replicate 2048 'x').length = 2048
    rw [List.length_replicate]
  have hclean : ∀ c ∈ longRecord.data, c ≠ '\n' ∧ c ≠ '\r' := by
    intro c hc
    rw [show longRecord.data = List.replicate 2048 'x' from rfl,
      List.mem_replicate] at hc
    obtain ⟨-, rfl⟩ := hc
    exact ⟨by decide, by decide⟩
  refine ⟨by omega, by rw [hlen]; norm_num [LP_MAX_CAPACITY], hclean, ?_⟩
  exact C10_long_record_split (fun _ => true) longRecord (by omega)
    (by rw [hlen]; norm_num [LP_MAX_CAPACITY]) hclean

/-! ## Claim C1: partial failure during spool replay -/

/-- `offline_queue_process` on a spool of well-formed lines: the spool ends
up holding exactly the concatenation of the failed batches (or is removed
when every batch succeeded), the temporary file is gone either way, and
every batch was handed to the callback. -/
theorem offline_queue_process_batches (send_func : String → Bool)
    (lines : List String) (hne : lines ≠ [])
    (hwf : ∀ l ∈ lines, l.data ≠ [] ∧ l.length ≤ 2046 ∧ '\n' ∉ l.data ∧
      strip_crlf l.data ≠ []) :
    offline_queue_process send_func (some (encode_lines lines)) =
      (if (spool_batches (lines.map
            (fun l => String.mk (strip_crlf l.data ++ ['\n'])))).any
          (fun bb => !send_func (String.join bb)) then
        { spool := some (String.join (((spool_batches (lines.map
              (fun l => String.mk (strip_crlf l.data ++ ['\n'])))).filter
              (fun bb => !send_func (String.join bb))).join)).data
          tmpExists := false
          sent := (spool_batches (lines.map
            (fun l => String.mk (strip_crlf l.data ++ ['\n'])))).map String.join }
      else
        { spool := none
          tmpExists := false
          sent := (spool_batches (lines.map
            (fun l => String.mk (strip_crlf l.data ++ ['\n'])))).map String.join }) := by
  obtain ⟨l, ls, rfl⟩ : ∃ l ls, lines = l :: ls := by
    cases lines with
    | nil => exact absurd rfl hne
    | cons l ls => exact ⟨l, ls, rfl⟩
  obtain ⟨hld, -, -, -⟩ := hwf l (List.mem_cons_self l ls)
  obtain ⟨c, cs, hlc⟩ : ∃ c cs, l.data = c :: cs := by
    cases hx : l.data with
    | nil => exact absurd hx hld
    | cons c cs => exact ⟨c, cs, rfl⟩
  have hemp : (encode_lines (l :: ls)).isEmpty = false := by
    rw [show encode_lines (l :: ls) = l.data ++ '\n' :: encode_lines ls from by
      simp [encode_lines], hlc]
    rfl
  simp only [offline_queue_process]
  rw [if_neg (by simp [hemp])]
  rw [replay_loop_short_lines send_func (l :: ls) hwf [] [] false []]
  rw [replay_lines_spec send_func _ [] [] false [] (by simp [MAX_BATCH_SIZE])]
  simp only [List.nil_append, Bool.false_or]

/-- Stripped entries of newline- and CR-free lines. -/
theorem entries_of_clean (lines : List String)
    (h : ∀ l ∈ lines, '\n' ∉ l.data ∧ '\r' ∉ l.data) :
    lines.map (fun l => String.mk (strip_crlf l.data ++ ['\n'])) =
      lines.map (· ++ "\n") := by
  induction lines with
  | nil => rfl
  | cons l ls ih =>
    obtain ⟨h1, h2⟩ := h l (List.mem_cons_self l ls)
    simp only [List.map_cons]
    rw [ih (fun x hx => h x (List.mem_cons_of_mem l hx))]
    rw [strip_crlf_eq_self l.data
      (fun c hc => ⟨fun he => h1 (he ▸ hc), fun he => h2 (he ▸ hc)⟩)]
    rfl

/-- Three batches of a 12000-entry spool. -/
theorem spool_batches_of_length_12000 (E : List String) (h : E.length = 12000) :
    spool_batches E =
      [E.take MAX_BATCH_SIZE, (E.drop MAX_BATCH_SIZE).take MAX_BATCH_SIZE,
       (E.drop MAX_BATCH_SIZE).drop MAX_BATCH_SIZE] := by
  have hne1 : E ≠ [] := by
    intro hx
    rw [hx] at h
    exact absurd h (by decide)
  have hlen2 : (E.drop MAX_BATCH_SIZE).length = 7000 := by
    rw [List.length_drop, h]
    norm_num [MAX_BATCH_SIZE]
  have hne2 : E.drop MAX_BATCH_SIZE ≠ [] := by
    intro hx
    rw [hx] at hlen2
    exact absurd hlen2 (by decide)
  have hlen3 : ((E.drop MAX_BATCH_SIZE).drop MAX_BATCH_SIZE).length = 2000 := by
    rw [List.length_drop, hlen2]
    norm_num [MAX_BATCH_SIZE]
  have hne3 : (E.drop MAX_BATCH_SIZE).drop MAX_BATCH_SIZE ≠ [] := by
    intro hx
    rw [hx] at hlen3
    exact absurd hlen3 (by decide)
  rw [spool_batches.eq_def, dif_neg hne1]
  rw [spool_batches.eq_def, dif_neg hne2]
  rw [spool_batches.eq_def, dif_neg hne3]
  rw [List.take_of_length_le
    (show ((E.drop MAX_BATCH_SIZE).drop MAX_BATCH_SIZE).length ≤ MAX_BATCH_SIZE
      from by rw [hlen3]; norm_num [MAX_BATCH_SIZE])]
  rw [List.drop_eq_nil_of_le
    (show ((E.drop MAX_BATCH_SIZE).drop MAX_BATCH_SIZE).length ≤ MAX_BATCH_SIZE
      from by rw [hlen3]; norm_num [MAX_BATCH_SIZE])]
  rw [spool_batches_nil]

/-- Joining newline-terminated lines gives the encoded spool file. -/
theorem string_join_newline_data (ls : List String) :
    (String.join (ls.map (· ++ "\n"))).data = encode_lines ls := by
  rw [string_join_data, List.map_map, encode_lines]
  have hfun : String.data ∘ (· ++ "\n") = fun l : String => l.data ++ ['\n'] :=
    funext fun l => by simp [String.data_append]
  rw [hfun]

/-- C1 (amended): for every spool file of 12000 non-blank lines, each
shorter than 2047 bytes and free of embedded newlines and carriage
returns, and every send callback that fails on the content of the 2nd
batch (lines 5001-10000) and succeeds on the contents of the 1st and 3rd,
after `offline_queue_process` the spool file contains exactly those 5000
lines of the failed 2nd batch, in their original order, and none of the
10000 successfully-sent lines; the temporary file no longer exists under
its own name.  (Lines with carriage returns or of 2047 bytes or more are
not retained verbatim; see the counterexample.) -/
theorem C1_spool_partial_failure (send_func : String → Bool)
    (lines : List String) (hcount : lines.length = 12000)
    (hwf : ∀ l ∈ lines, l ≠ "" ∧ l.length ≤ 2046 ∧ '\n' ∉ l.data ∧ '\r' ∉ l.data)
    (h1 : send_func (String.join ((lines.take 5000).map (· ++ "\n"))) = true)
    (h2 : send_func
      (String.join (((lines.drop 5000).take 5000).map (· ++ "\n"))) = false)
    (h3 : send_func
      (String.join (((lines.drop 5000).drop 5000).map (· ++ "\n"))) = true) :
    offline_queue_process send_func (some (encode_lines lines)) =
      { spool := some (encode_lines ((lines.drop 5000).take 5000))
        tmpExists := false
        sent := [String.join ((lines.take 5000).map (· ++ "\n")),
                 String.join (((lines.drop 5000).take 5000).map (· ++ "\n")),
                 String.join (((lines.drop 5000).drop 5000).map (· ++ "\n"))] } := by
  have hne : lines ≠ [] := by
    intro hx
    rw [hx] at hcount
    exact absurd hcount (by decide)
  have hwf' : ∀ l ∈ lines, l.data ≠ [] ∧ l.length ≤ 2046 ∧ '\n' ∉ l.data ∧
      strip_crlf l.data ≠ [] := by
    intro l hl
    obtain ⟨hne0, hlen, hnl, hnr⟩ := hwf l hl
    have hld : l.data ≠ [] := by
      intro hx
      exact hne0 (by rw [show l = String.mk l.data from rfl, hx])
    refine ⟨hld, hlen, hnl, ?_⟩
    rw [strip_crlf_eq_self l.data
      (fun c hc => ⟨fun he => hnl (he ▸ hc), fun he => hnr (he ▸ hc)⟩)]
    exact hld
  have hclean : ∀ l ∈ lines, '\n' ∉ l.data ∧ '\r' ∉ l.data :=
    fun l hl => ⟨(hwf l hl).2.2.1, (hwf l hl).2.2.2⟩
  have hE : (lines.map (· ++ "\n")).length = 12000 := by
    rw [List.length_map, hcount]
  rw [offline_queue_process_batches send_func lines hne hwf']
  rw [entries_of_clean lines hclean]
  rw [spool_batches_of_length_12000 _ hE]
  simp only [MAX_BATCH_SIZE]
  have h1' : send_func
      (String.join ((lines.map (· ++ "\n")).take 5000)) = true := by
    rw [← List.map_take]
    exact h1
  have h2' : send_func
      (String.join (((lines.map (· ++ "\n")).drop 5000).take 5000)) = false := by
    rw [← List.map_drop, ← List.map_take]
    exact h2
  have h3' : send_func
      (String.join (((lines.map (· ++ "\n")).drop 5000).drop 5000)) = true := by
    rw [← List.map_drop, ← List.map_drop]
    exact h3
  rw [if_pos (show
      ([(lines.map (· ++ "\n")).take 5000,
        ((lines.map (· ++ "\n")).drop 5000).take 5000,
        ((lines.map (· ++ "\n")).drop 5000).drop 5000].any
        (fun bb => !send_func (String.join bb))) = true from by
    simp only [List.any_cons, List.any_nil, h1', h2', h3']
    rfl)]
  rw [show List.filter (fun bb => !send_func (String.join bb))
      [(lines.map (· ++ "\n")).take 5000,
       ((lines.map (· ++ "\n")).drop 5000).take 5000,
       ((lines.map (· ++ "\n")).drop 5000).drop 5000] =
      [((lines.map (· ++ "\n")).drop 5000).take 5000] from by
    simp only [List.filter_cons, List.filter_nil, h1', h2', h3']
    rfl]
  rw [show ([((lines.map (· ++ "\n")).drop 5000).take 5000] :
      List (List String)).join =
      ((lines.map (· ++ "\n")).drop 5000).take 5000 from by simp]
  rw [show (String.join (((lines.map (· ++ "\n")).drop 5000).take 5000)).data =
      encode_lines ((lines.drop 5000).take 5000) from by
    rw [← List.map_drop, ← List.map_take]
    exact string_join_newline_data _]
  simp only [List.map_cons, List.map_nil, List.map_take, List.map_drop]

/-- The first character of a joined nonempty list of strings. -/
theorem string_join_head (x : String) (xs : List String) (c : Char)
    (cs : List Char) (hx : x.data = c :: cs) :
    (String.join (x :: xs)).data.head? = some c := by
  rw [string_join_data, List.map_cons]
  simp only [List.join]
  rw [hx]
  simp

/-- The length of a joined list of strings. -/
theorem string_join_length (ls : List String) :
    (String.join ls).length = (ls.map String.length).sum := by
  show (String.join ls).data.length = _
  rw [string_join_data, List.length_join]
  congr 1
  rw [List.map_map]
  have hf : List.length ∘ String.data = String.length := rfl
  rw [hf]

/-- Witness for C1: 5000 lines `a`, then 5000 lines `b`, then 2000 lines
`c`, with a callback failing exactly on the batch of `b` lines. -/
theorem C1_witness :
    linesW.length = 12000 ∧
    (∀ l ∈ linesW, l ≠ "" ∧ l.length ≤ 2046 ∧ '\n' ∉ l.data ∧ '\r' ∉ l.data) ∧
    sendW (String.join ((linesW.take 5000).map (· ++ "\n"))) = true ∧
    sendW (String.join (((linesW.drop 5000).take 5000).map (· ++ "\n"))) = false ∧
    sendW (String.join (((linesW.drop 5000).drop 5000).map (· ++ "\n"))) = true ∧
    offline_queue_process sendW (some (encode_lines linesW)) =
      { spool := some (encode_lines ((linesW.drop 5000).take 5000))
        tmpExists := false
        sent := [String.join ((linesW.take 5000).map (· ++ "\n")),
                 String.join (((linesW.drop 5000).take 5000).map (· ++ "\n")),
                 String.join (((linesW.drop 5000).drop 5000).map (· ++ "\n"))] } := by
  have hlw : linesW =
      List.replicate 5000 "a" ++ (List.replicate 5000 "b" ++ List.replicate 2000 "c") := rfl
  have hlen : linesW.length = 12000 := by
    rw [hlw, List.length_append, List.length_append, List.length_replicate,
      List.length_replicate, List.length_replicate]
  have hwf : ∀ l ∈ linesW,
      l ≠ "" ∧ l.length ≤ 2046 ∧ '\n' ∉ l.data ∧ '\r' ∉ l.data := by
    intro l hl
    rw [hlw] at hl
    simp only [List.mem_append, List.mem_replicate] at hl
    rcases hl with ⟨-, rfl⟩ | ⟨-, rfl⟩ | ⟨-, rfl⟩ <;>
      exact ⟨by decide, by decide, by decide, by decide⟩
  have hc1 : linesW.take 5000 = List.replicate 5000 "a" := by
    rw [hlw]
    exact List.take_left' (by rw [List.length_replicate])
  have hd1 : linesW.drop 5000 =
      List.replicate 5000 "b" ++ List.replicate 2000 "c" := by
    rw [hlw]
    exact List.drop_left' (by rw [List.length_replicate])
  have hc2 : (linesW.drop 5000).take 5000 = List.replicate 5000 "b" := by
    rw [hd1]
    exact List.take_left' (by rw [List.length_replicate])
  have hc3 : (linesW.drop 5000).drop 5000 = List.replicate 2000 "c" := by
    rw [hd1]
    exact List.drop_left' (by rw [List.length_replicate])
  have hheadA : (String.join ((linesW.take 5000).map (· ++ "\n"))).data.head? =
      some 'a' := by
    rw [hc1, List.map_replicate]
    rw [show ("a" ++ "\n" : String) = "a\n" from rfl]
    rw [show (5000 : Nat) = 4999 + 1 from rfl, List.replicate_succ]
    exact string_join_head "a\n" _ 'a' ['\n'] rfl
  have hheadB :
      (String.join (((linesW.drop 5000).take 5000).map (· ++ "\n"))).data.head? =
        some 'b' := by
    rw [hc2, List.map_replicate]
    rw [show ("b" ++ "\n" : String) = "b\n" from rfl]
    rw [show (5000 : Nat) = 4999 + 1 from rfl, List.replicate_succ]
    exact string_join_head "b\n" _ 'b' ['\n'] rfl
  have hheadC :
      (String.join (((linesW.drop 5000).drop 5000).map (· ++ "\n"))).data.head? =
        some 'c' := by
    rw [hc3, List.map_replicate]
    rw [show ("c" ++ "\n" : String) = "c\n" from rfl]
    rw [show (2000 : Nat) = 1999 + 1 from rfl, List.replicate_succ]
    exact string_join_head "c\n" _ 'c' ['\n'] rfl
  have hs1 : sendW (String.join ((linesW.take 5000).map (· ++ "\n"))) = true := by
    show (!(decide ((String.join ((linesW.take 5000).map (· ++ "\n"))).data.head? =
      some 'b'))) = true
    rw [hheadA]
    decide
  have hs2 :
      sendW (String.join (((linesW.drop 5000).take 5000).map (· ++ "\n"))) = false := by
    show (!(decide
      ((String.join (((linesW.drop 5000).take 5000).map (· ++ "\n"))).data.head? =
        some 'b'))) = false
    rw [hheadB]
    decide
  have hs3 :
      sendW (String.join (((linesW.drop 5000).drop 5000).map (· ++ "\n"))) = true := by
    show (!(decide
      ((String.join (((linesW.drop 5000).drop 5000).map (· ++ "\n"))).data.head? =
        some 'b'))) = true
    rw [hheadC]
    decide
  exact ⟨hlen, hwf, hs1, hs2, hs3,
    C1_spool_partial_failure sendW linesW hlen hwf hs1 hs2 hs3⟩

/-- C1 counterexample: in a 12000-line spool whose line 5001 is `a\rb`
(non-blank), the replay loop truncates that line at the carriage return,
so the actually-sent 2nd batch differs from the claimed content of lines
5001-10000.  A callback failing exactly on that claimed content (and
succeeding on the other batch contents) therefore accepts every batch,
and the spool is deleted instead of containing the 5000 lines of the 2nd
batch as the claim requires. -/
theorem C1_counterexample :
    linesC1c.length = 12000 ∧
    "" ∉ linesC1c ∧
    sendC1c claimedBatch2 = false ∧
    sendC1c (String.join ((linesC1c.take 5000).map (· ++ "\n"))) = true ∧
    sendC1c (String.join (((linesC1c.drop 5000).drop 5000).map (· ++ "\n"))) = true ∧
    (offline_queue_process sendC1c (some (encode_lines linesC1c))).spool = none ∧
    (offline_queue_process sendC1c (some (encode_lines linesC1c))).spool ≠
      some (encode_lines ((linesC1c.drop 5000).take 5000)) := by
  have hlc : linesC1c =
      List.replicate 5000 "c" ++ "a\rb" :: List.replicate 6999 "c" := rfl
  have hlen : linesC1c.length = 12000 := by
    rw [hlc, List.length_append, List.length_cons, List.length_replicate,
      List.length_replicate]
  have hne : linesC1c ≠ [] := by
    intro h
    rw [h] at hlen
    exact absurd hlen (by decide)
  have hnb : "" ∉ linesC1c := by
    rw [hlc]
    intro h
    simp only [List.mem_append, List.mem_cons, List.mem_replicate] at h
    rcases h with ⟨-, h⟩ | h | ⟨-, h⟩ <;> exact absurd h (by decide)
  have hwf' : ∀ l ∈ linesC1c, l.data ≠ [] ∧ l.length ≤ 2046 ∧ '\n' ∉ l.data ∧
      strip_crlf l.data ≠ [] := by
    intro l hl
    rw [hlc] at hl
    simp only [List.mem_append, List.mem_cons, List.mem_replicate] at hl
    rcases hl with ⟨-, rfl⟩ | rfl | ⟨-, rfl⟩ <;>
      exact ⟨by decide, by decide, by decide, by decide⟩
  have hmapE : linesC1c.map (fun l => String.mk (strip_crlf l.data ++ ['\n'])) =
      List.replicate 5000 "c\n" ++ "a\n" :: List.replicate 6999 "c\n" := by
    rw [hlc, List.map_append, List.map_cons, List.map_replicate,
      List.map_replicate]
    simp only []
    rw [show String.mk (strip_crlf "c".data ++ ['\n']) = ("c\n" : String) from rfl]
    rw [show String.mk (strip_crlf "a\rb".data ++ ['\n']) = ("a\n" : String) from rfl]
  have hE' : (List.replicate 5000 "c\n" ++ "a\n" :: List.replicate 6999 "c\n").length
      = 12000 := by
    rw [List.length_append, List.length_cons, List.length_replicate,
      List.length_replicate]
  have hEc1 : (List.replicate 5000 "c\n" ++
      "a\n" :: List.replicate 6999 "c\n").take 5000 =
      List.replicate 5000 "c\n" :=
    List.take_left' (by rw [List.length_replicate])
  have hEd1 : (List.replicate 5000 "c\n" ++
      "a\n" :: List.replicate 6999 "c\n").drop 5000 =
      "a\n" :: List.replicate 6999 "c\n" :=
    List.drop_left' (by rw [List.length_replicate])
  have hEc2 : ((List.replicate 5000 "c\n" ++
      "a\n" :: List.replicate 6999 "c\n").drop 5000).take 5000 =
      "a\n" :: List.replicate 4999 "c\n" := by
    rw [hEd1, show (5000 : Nat) = 4999 + 1 from rfl, List.take_succ_cons,
      List.take_replicate, show min 4999 6999 = 4999 from rfl]
  have hEc3 : ((List.replicate 5000 "c\n" ++
      "a\n" :: List.replicate 6999 "c\n").drop 5000).drop 5000 =
      List.replicate 2000 "c\n" := by
    rw [hEd1, show (5000 : Nat) = 4999 + 1 from rfl, List.drop_succ_cons,
      List.drop_replicate, show (6999 - 4999 : Nat) = 2000 from rfl]
  have hclaim_chunk : (linesC1c.drop 5000).take 5000 =
      "a\rb" :: List.replicate 4999 "c" := by
    rw [hlc, List.drop_left' (by rw [List.length_replicate]),
      show (5000 : Nat) = 4999 + 1 from rfl, List.take_succ_cons,
      List.take_replicate, show min 4999 6999 = 4999 from rfl]
  have hclaimlen : claimedBatch2.length = 10002 := by
    rw [show claimedBatch2 =
        String.join (((linesC1c.drop 5000).take 5000).map (· ++ "\n")) from rfl]
    rw [hclaim_chunk, List.map_cons, List.map_replicate]
    rw [show ("a\rb" ++ "\n" : String) = "a\rb\n" from rfl,
      show ("c" ++ "\n" : String) = "c\n" from rfl]
    rw [string_join_length, List.map_cons, List.map_replicate, List.sum_cons,
      List.sum_replicate]
    rw [show ("a\rb\n" : String).length = 4 from rfl,
      show ("c\n" : String).length = 2 from rfl, smul_eq_mul]
  have hlb1 : (String.join (List.replicate 5000 "c\n")).length = 10000 := by
    rw [string_join_length, List.map_replicate, List.sum_replicate,
      show ("c\n" : String).length = 2 from rfl, smul_eq_mul]
  have hlb2 : (String.join ("a\n" :: List.replicate 4999 "c\n")).length = 10000 := by
    rw [string_join_length, List.map_cons, List.map_replicate, List.sum_cons,
      List.sum_replicate, show ("a\n" : String).length = 2 from rfl,
      show ("c\n" : String).length = 2 from rfl, smul_eq_mul]
  have hlb3 : (String.join (List.replicate 2000 "c\n")).length = 4000 := by
    rw [string_join_length, List.map_replicate, List.sum_replicate,
      show ("c\n" : String).length = 2 from rfl, smul_eq_mul]
  have hvals : ∀ s : String, s.length ≠ claimedBatch2.length → sendC1c s = true := by
    intro s hne2
    have hsne : s ≠ claimedBatch2 := fun h => hne2 (by rw [h])
    show (!(decide (s = claimedBatch2))) = true
    rw [decide_eq_false hsne]
    rfl
  have hs1 : sendC1c (String.join (List.replicate 5000 "c\n")) = true :=
    hvals _ (by rw [hlb1, hclaimlen]; norm_num)
  have hs2 : sendC1c (String.join ("a\n" :: List.replicate 4999 "c\n")) = true :=
    hvals _ (by rw [hlb2, hclaimlen]; norm_num)
  have hs3 : sendC1c (String.join (List.replicate 2000 "c\n")) = true :=
    hvals _ (by rw [hlb3, hclaimlen]; norm_num)
  have hsendfail : sendC1c claimedBatch2 = false := by
    show (!(decide (claimedBatch2 = claimedBatch2))) = false
    simp
  have hspool :
      (offline_queue_process sendC1c (some (encode_lines linesC1c))).spool = none := by
    rw [offline_queue_process_batches sendC1c linesC1c hne hwf', hmapE]
    rw [spool_batches_of_length_12000 _ hE']
    simp only [MAX_BATCH_SIZE]
    rw [hEc1, hEc2, hEc3]
    rw [if_neg (by
      simp only [List.any_cons, List.any_nil, hs1, hs2, hs3]
      decide)]
  have hsc1 : sendC1c (String.join ((linesC1c.take 5000).map (· ++ "\n"))) = true := by
    rw [hlc, List.take_left' (by rw [List.length_replicate]), List.map_replicate,
      show ("c" ++ "\n" : String) = "c\n" from rfl]
    exact hs1
  have hsc3 : sendC1c
      (String.join (((linesC1c.drop 5000).drop 5000).map (· ++ "\n"))) = true := by
    rw [hlc, List.drop_left' (by rw [List.length_replicate]),
      show (5000 : Nat) = 4999 + 1 from rfl, List.drop_succ_cons,
      List.drop_replicate, show (6999 - 4999 : Nat) = 2000 from rfl,
      List.map_replicate, show ("c" ++ "\n" : String) = "c\n" from rfl]
    exact hs3
  refine ⟨hlen, hnb, hsendfail, hsc1, hsc3, hspool, ?_⟩
  rw [hspool]
  simp
